import Mathlib

/-!
Verification of the linear-local-mcp repository (Python, three source files:
`store_detector.py`, `reader.py`, `server.py`).

The Python code is shallowly embedded: dynamic values that flow through the
detector and the rich-text extractor are modelled by the inductive `PyVal`;
loaded entity records (teams, users, workflow states, issues) are modelled by
structures whose fields mirror the dict shapes built in
`LinearLocalReader._reload_cache`; Python string operations used by the code
(`lower`, `upper`, `startswith`, substring `in`, `isupper`, `isalpha`) are
modelled over the character lists of Lean strings with ASCII case semantics
(the repository only works with ASCII team keys and identifiers).  Stdlib
collaborators that the code calls but that are not part of the repository
(`json.loads`, `datetime.fromisoformat`) are abstracted as function
parameters (`parse`, `isoParse`).  Python's stable `list.sort` / `sorted`
is modelled by `List.insertionSort`, which is a stable sort, with the same
comparison key as the source.
-/

/-- ASCII lowercase of one character, the effect of Python `str.lower` on the
ASCII range. -/
def lowerChar (c : Char) : Char :=
  if 65 ≤ c.toNat ∧ c.toNat ≤ 90 then Char.ofNat (c.toNat + 32) else c

/-- ASCII uppercase of one character, the effect of Python `str.upper` on the
ASCII range. -/
def upperChar (c : Char) : Char :=
  if 97 ≤ c.toNat ∧ c.toNat ≤ 122 then Char.ofNat (c.toNat - 32) else c

/-- Python `s.lower()` (ASCII model). -/
def pyLower (s : String) : String := ⟨s.data.map lowerChar⟩

/-- Python `s.upper()` (ASCII model). -/
def pyUpper (s : String) : String := ⟨s.data.map upperChar⟩

/-- Python substring containment `needle in hay` on character lists. -/
def strIn (needle : List Char) : List Char → Bool
  | [] => needle.isEmpty
  | c :: rest => List.isPrefixOf needle (c :: rest) || strIn needle rest

/-- Python `hay.startswith(needle)`. -/
def strStarts (needle hay : String) : Bool := List.isPrefixOf needle.data hay.data

/-- `true` iff the character is an ASCII letter. -/
def isAsciiLetter (c : Char) : Bool :=
  (decide ('A' ≤ c) && decide (c ≤ 'Z')) || (decide ('a' ≤ c) && decide (c ≤ 'z'))

/-- `true` iff the character is an ASCII uppercase letter. -/
def isUpperAZ (c : Char) : Bool := decide ('A' ≤ c) && decide (c ≤ 'Z')

/-- `true` iff the character is an ASCII decimal digit. -/
def isDigitC (c : Char) : Bool := decide ('0' ≤ c) && decide (c ≤ '9')

/-- Python `s.isalpha()` (ASCII model): non-empty and every character a
letter. -/
def pyIsAlpha (s : String) : Bool := !s.data.isEmpty && s.data.all isAsciiLetter

/-- Python `s.isupper()` (ASCII model): at least one cased character and no
lowercase cased character. -/
def pyIsUpper (s : String) : Bool :=
  s.data.any isAsciiLetter && s.data.all (fun c => !isAsciiLetter c || isUpperAZ c)

/-- Decimal digit character for a value below ten. -/
def digitChar (d : Nat) : Char := Char.ofNat (48 + d)

/-- Decimal digits of a natural number, most significant first; the fuel is
an upper bound on the number of divisions by ten. -/
def natDigitsAux : Nat → Nat → List Char
  | 0, _ => []
  | fuel + 1, n => if n < 10 then [digitChar n] else
      natDigitsAux fuel (n / 10) ++ [digitChar (n % 10)]

/-- Python `str(n)` for a natural number. -/
def natStr (n : Nat) : String := ⟨natDigitsAux (n + 1) n⟩

/-- Python `str(i)` for an integer. -/
def intStr (i : Int) : String :=
  if i < 0 then "-" ++ natStr (-i).toNat else natStr i.toNat

/-- A Python value as it appears in decoded IndexedDB records: the JSON-like
universe the repository's dynamic code manipulates. -/
inductive PyVal where
  | none
  | bool (b : Bool)
  | int (n : Int)
  | str (s : String)
  | list (xs : List PyVal)
  | dict (fs : List (String × PyVal))

/-- Python `d.get(k)` on a dict with string keys (first binding wins, as dict
keys are unique). -/
def pyDictGet (fs : List (String × PyVal)) (k : String) : Option PyVal :=
  (fs.find? (fun p => p.1 == k)).map (fun p => p.2)

/-- Python `v == s` where `s` is a string literal: equal iff `v` is that
string (comparison of a non-string against a string is `False`). -/
def pyEqStr (v : PyVal) (s : String) : Bool :=
  match v with
  | .str t => t == s
  | _ => false

/-- Python dict membership `k in d`. -/
def pyHasKey (fs : List (String × PyVal)) (k : String) : Bool :=
  fs.any (fun p => p.1 == k)

/-- Python truthiness of a value. -/
def pyTruthy : PyVal → Bool
  | .none => false
  | .bool b => b
  | .int n => n != 0
  | .str s => !s.data.isEmpty
  | .list xs => !xs.isEmpty
  | .dict fs => !fs.isEmpty

/-- Python truthiness of an optional string argument (`None` and the empty
string are falsy). -/
def optStrTruthy : Option String → Bool
  | Option.none => false
  | Option.some s => !s.data.isEmpty

mutual
/-- Python `repr(v)` for JSON-like values, used only inside f-string
rendering of containers; string escaping is approximated by plain single
quotes (no claim exercises exotic strings). -/
def pyReprVal : PyVal → String
  | .none => "None"
  | .bool b => if b then "True" else "False"
  | .int n => intStr n
  | .str s => "\x27" ++ s ++ "\x27"
  | .list xs => "[" ++ pyReprList xs ++ "]"
  | .dict fs => "\x7b" ++ pyReprFields fs ++ "\x7d"

/-- Comma-separated reprs of list elements. -/
def pyReprList : List PyVal → String
  | [] => ""
  | [x] => pyReprVal x
  | x :: y :: rest => pyReprVal x ++ ", " ++ pyReprList (y :: rest)

/-- Comma-separated reprs of dict entries. -/
def pyReprFields : List (String × PyVal) → String
  | [] => ""
  | [(k, v)] => "\x27" ++ k ++ "\x27: " ++ pyReprVal v
  | (k, v) :: e :: rest =>
      "\x27" ++ k ++ "\x27: " ++ pyReprVal v ++ ", " ++ pyReprFields (e :: rest)
end

/-- Python `str(v)` / f-string conversion of a value. -/
def pyStrVal : PyVal → String
  | .none => "None"
  | .bool b => if b then "True" else "False"
  | .int n => intStr n
  | .str s => s
  | .list xs => "[" ++ pyReprList xs ++ "]"
  | .dict fs => "\x7b" ++ pyReprFields fs ++ "\x7d"

/-! ### store_detector.py -/

/-- Container for detected object store names
(`store_detector.py`, `DetectedStores`); `detect_stores` initialises the
`users` and `workflow_states` collections to empty lists. -/
structure DetectedStores where
  issues : Option String := Option.none
  teams : Option String := Option.none
  users : List String := []
  workflow_states : List String := []
  comments : Option String := Option.none
  projects : Option String := Option.none
deriving DecidableEq, Repr

/-- `_is_issue_record`: the sampled record has at least the fields
`number`, `teamId`, `stateId`, `title` (superset check). -/
def is_issue_record (fs : List (String × PyVal)) : Bool :=
  ["number", "teamId", "stateId", "title"].all (fun k => pyHasKey fs k)

/-- `_is_user_record`: fields `name`, `displayName`, `email` plus an
avatar-related field. -/
def is_user_record (fs : List (String × PyVal)) : Bool :=
  ["name", "displayName", "email"].all (fun k => pyHasKey fs k) &&
  (pyHasKey fs "avatarUrl" || pyHasKey fs "avatar")

/-- The team-key shape test of `_is_team_record`: an all-uppercase,
all-alphabetic string of at most ten characters. -/
def teamKeyOk (k : String) : Bool :=
  pyIsUpper k && pyIsAlpha k && decide (k.data.length ≤ 10)

/-- `_is_team_record`: fields `key`, `name`, with `key` a short uppercase
alphabetic string. -/
def is_team_record (fs : List (String × PyVal)) : Bool :=
  (["key", "name"].all (fun k => pyHasKey fs k)) &&
  (match pyDictGet fs "key" with
   | Option.some (.str k) => teamKeyOk k
   | _ => false)

/-- `_is_workflow_state_record`: fields `name`, `type`, `color`, with `type`
one of the five known state types. -/
def is_workflow_state_record (fs : List (String × PyVal)) : Bool :=
  (["name", "type", "color"].all (fun k => pyHasKey fs k)) &&
  (match pyDictGet fs "type" with
   | Option.some (.str t) =>
       ["started", "unstarted", "completed", "canceled", "backlog"].contains t
   | _ => false)

/-- `_is_comment_record`: fields `issueId`, `userId`, `bodyData`,
`createdAt`. -/
def is_comment_record (fs : List (String × PyVal)) : Bool :=
  ["issueId", "userId", "bodyData", "createdAt"].all (fun k => pyHasKey fs k)

/-- `_is_project_record`: fields `name`, `description`, `teamIds`,
`startDate`, `targetDate`, `statusId`. -/
def is_project_record (fs : List (String × PyVal)) : Bool :=
  ["name", "description", "teamIds", "startDate", "targetDate", "statusId"].all
    (fun k => pyHasKey fs k)

/-- One raw object store as `detect_stores` sees it: its name (possibly
`None`) and the value of its first record — `Option.none` when the store
yields no records or raises while being read (both are skipped). -/
structure StoreTable where
  name : Option String
  firstRecord : Option PyVal

/-- Store-name screening in `detect_stores`: skip a `None` name, a name
starting with an underscore, or a name containing `_partial`. -/
def storeNameSkipped : Option String → Bool
  | Option.none => true
  | Option.some nm =>
      (match nm.data with
       | [] => false
       | c :: _ => c == '_') || strIn "_partial".data nm.data

/-- One iteration of the `detect_stores` loop body on a single table,
mirroring the chained `elif`s: the first predicate that matches (and whose
slot is still free, for the single-slot kinds) claims the table. -/
def detectStep (r : DetectedStores) (t : StoreTable) : DetectedStores :=
  if storeNameSkipped t.name then r
  else
    match t.name, t.firstRecord with
    | Option.some nm, Option.some (.dict fs) =>
        if is_issue_record fs && r.issues.isNone then { r with issues := Option.some nm }
        else if is_team_record fs && r.teams.isNone then { r with teams := Option.some nm }
        else if is_user_record fs && !(r.users.contains nm) then
          { r with users := r.users ++ [nm] }
        else if is_workflow_state_record fs && !(r.workflow_states.contains nm) then
          { r with workflow_states := r.workflow_states ++ [nm] }
        else if is_comment_record fs && r.comments.isNone then
          { r with comments := Option.some nm }
        else if is_project_record fs && r.projects.isNone then
          { r with projects := Option.some nm }
        else r
    | _, _ => r

/-- `detect_stores`: fold the loop body over the database's object stores in
iteration order. -/
def detect_stores (tables : List StoreTable) : DetectedStores :=
  tables.foldl detectStep {}

/-! ### reader.py — loaded entity records -/

/-- A Python datetime-ish value as stored in `createdAt` / `updatedAt`
fields and passed to `_parse_datetime`: a number (timestamps are modelled as
rationals, since Python divides by 1000), a string, `None`, or any other
value (which `_parse_datetime` maps to `None`). -/
inductive PyDateVal where
  | none
  | num (q : ℚ)
  | str (s : String)
  | other
deriving DecidableEq, Repr

/-- A team entry of `cache.teams` built by `_reload_cache` (fields `id`,
`key`, `name`; `key` and `name` may be `None`). -/
structure TeamRec where
  id : String
  key : Option String
  name : Option String
deriving DecidableEq, Repr

/-- A user entry of `cache.users`. -/
structure UserRec where
  id : String
  name : Option String
  displayName : Option String
  email : Option String
deriving DecidableEq, Repr

/-- A workflow-state entry of `cache.states`. -/
structure StateRec where
  id : String
  name : Option String
  type : Option String
  color : Option String
deriving DecidableEq, Repr

/-- An issue entry of `cache.issues` built by `_reload_cache`. -/
structure IssueRec where
  id : String
  identifier : String
  title : Option String
  number : Option Int
  priority : Option Int
  teamId : Option String
  stateId : Option String
  assigneeId : Option String
  projectId : Option String
  labelIds : List String
  createdAt : PyDateVal
  updatedAt : PyDateVal
deriving DecidableEq, Repr

/-- `LinearLocalReader._to_str` applied to a field that is either a string
or `None` (byte values are modelled as their best-effort decoded text). -/
def toStrOpt (v : Option String) : String := v.getD ""

/-! ### reader.py — snapshot loading (`_reload_cache`) -/

/-- A raw team record as read from the teams store (only the fields the
loader touches; the record's `id` is required, per the load loop). -/
structure RawTeamVal where
  id : String
  key : Option String
  name : Option String
deriving DecidableEq, Repr

/-- A raw issue record as read from the issues store. -/
structure RawIssueVal where
  id : String
  title : Option String
  number : Option Int
  priority : Option Int
  teamId : Option String
  stateId : Option String
  assigneeId : Option String
  projectId : Option String
  labelIds : List String
  createdAt : PyDateVal
  updatedAt : PyDateVal
deriving DecidableEq, Repr

/-- Python dict insertion `d[id] = x` keyed by `id`: overwrite in place when
the key exists, else append (dicts preserve first-insertion order). -/
def dictInsertTeam (l : List TeamRec) (x : TeamRec) : List TeamRec :=
  if l.any (fun y => y.id == x.id) then
    l.map (fun y => if y.id == x.id then x else y)
  else l ++ [x]

/-- Python dict insertion for issue records, as `dictInsertTeam`. -/
def dictInsertIssue (l : List IssueRec) (x : IssueRec) : List IssueRec :=
  if l.any (fun y => y.id == x.id) then
    l.map (fun y => if y.id == x.id then x else y)
  else l ++ [x]

/-- The teams pass of `_reload_cache`: `cache.teams[val["id"]] = {...}` over
the teams store in iteration order. -/
def loadTeams (raws : List RawTeamVal) : List TeamRec :=
  raws.foldl (fun acc v => dictInsertTeam acc ⟨v.id, v.key, v.name⟩) []

/-- `cache.teams.get(val.get("teamId"), {})` — dict lookup of a possibly
missing team id (a `None` id never matches a key of the map). -/
def teamLookup (tm : List TeamRec) (tid : Option String) : Option TeamRec :=
  match tid with
  | Option.none => Option.none
  | Option.some t => tm.find? (fun x => x.id == t)

/-- F-string rendering of `team.get("key", "???")`: the team dict always has
a `key` entry, so a `None` key renders as `"None"`, and the `"???"` default
appears only when the team was not found (empty dict). -/
def fstrOptStr : Option String → String
  | Option.none => "None"
  | Option.some s => s

/-- F-string rendering of `val.get("number")`. -/
def fstrOptInt : Option Int → String
  | Option.none => "None"
  | Option.some n => intStr n

/-- The identifier computation of the issues pass of `_reload_cache`:
`f"{team_key}-{val.get('number')}"` with
`team_key = cache.teams.get(val.get("teamId"), {}).get("key", "???")`. -/
def issueIdentifier (tm : List TeamRec) (v : RawIssueVal) : String :=
  match teamLookup tm v.teamId with
  | Option.some t => fstrOptStr t.key ++ "-" ++ fstrOptInt v.number
  | Option.none => "???-" ++ fstrOptInt v.number

/-- The issue dict built for one raw record in the issues pass. -/
def mkIssueRec (tm : List TeamRec) (v : RawIssueVal) : IssueRec :=
  { id := v.id
    identifier := issueIdentifier tm v
    title := v.title
    number := v.number
    priority := v.priority
    teamId := v.teamId
    stateId := v.stateId
    assigneeId := v.assigneeId
    projectId := v.projectId
    labelIds := v.labelIds
    createdAt := v.createdAt
    updatedAt := v.updatedAt }

/-- The issues pass of `_reload_cache`, run after the teams pass: the team
map used for identifiers is the one of the same load pass. -/
def loadIssues (tm : List TeamRec) (raws : List RawIssueVal) : List IssueRec :=
  raws.foldl (fun acc v => dictInsertIssue acc (mkIssueRec tm v)) []

/-- Decidable matcher for the identifier pattern of spec §8,
regex `^[A-Z???][A-Z0-9]*-\d+$` — consume `[A-Z0-9]*`, then the literal
hyphen, then one or more digits to the end.  The split at the first hyphen
is forced because no later character of the class or of `\d` is a hyphen. -/
def identTail : List Char → Bool
  | [] => false
  | c :: rest =>
      if c == '-' then !rest.isEmpty && rest.all isDigitC
      else (isUpperAZ c || isDigitC c) && identTail rest

/-- Whole-string matcher for `^[A-Z???][A-Z0-9]*-\d+$` (the character class
`[A-Z???]` is the uppercase letters plus `?`). -/
def matchesIdentPattern (s : String) : Bool :=
  match s.data with
  | [] => false
  | c :: rest => (isUpperAZ c || c == '?') && identTail rest

/-! ### reader.py — cache TTL (`CachedData.is_expired`, `_ensure_cache`) -/

/-- The cache fields relevant to the reload decision (`CachedData.teams`,
`CachedData.loaded_at`); time is modelled as a rational number of seconds. -/
structure CacheState where
  teams : List TeamRec
  loaded_at : ℚ
deriving DecidableEq

/-- `CACHE_TTL_SECONDS = 300`. -/
def CACHE_TTL_SECONDS : ℚ := 300

/-- `CachedData.is_expired`: `time.time() - self.loaded_at > CACHE_TTL_SECONDS`. -/
def is_expired (now : ℚ) (c : CacheState) : Bool :=
  decide (now - c.loaded_at > CACHE_TTL_SECONDS)

/-- The reload condition of `_ensure_cache`:
`self._cache.is_expired() or not self._cache.teams`. -/
def reloadTriggered (now : ℚ) (c : CacheState) : Bool :=
  is_expired now c || c.teams.isEmpty

/-! ### reader.py — user and team lookup -/

/-- The candidate filter and score of one loop iteration of `find_user`:
`Option.none` when the search term occurs in neither the lowercased name nor
the lowercased display name; otherwise the score 100 / 50 / 40 / 10. -/
def userScore (search : String) (u : UserRec) : Option Nat :=
  let searchL := (pyLower search).data
  let nameL := (pyLower (toStrOpt u.name)).data
  let dispL := (pyLower (toStrOpt u.displayName)).data
  if strIn searchL nameL || strIn searchL dispL then
    Option.some
      (if List.isPrefixOf searchL nameL then 100
       else if strIn (' ' :: searchL) (' ' :: nameL) then 50
       else if List.isPrefixOf searchL dispL then 40
       else 10)
  else Option.none

/-- The `candidates` list of `find_user`: `(score, user)` pairs in user
iteration order. -/
def userCandidates (users : List UserRec) (search : String) : List (Nat × UserRec) :=
  users.filterMap (fun u => (userScore search u).map (fun s => (s, u)))

/-- The descending-score order used by `candidates.sort(key=lambda x: -x[0])`. -/
def scoreDesc (a b : Nat × UserRec) : Prop := b.1 ≤ a.1

instance : DecidableRel scoreDesc := fun a b => inferInstanceAs (Decidable (b.1 ≤ a.1))

/-- `find_user`: collect scored candidates, stable-sort by descending score,
and return the first, or `None` with no candidate.  Python's `list.sort` is
stable, as is `List.insertionSort` with this reflexive total order. -/
def find_user (users : List UserRec) (search : String) : Option UserRec :=
  ((List.insertionSort scoreDesc (userCandidates users search)).head?).map
    (fun c => c.2)

/-- The per-team test of the `find_team` loop:
`key == search_upper or search_lower in name.lower()` with
`key = team.get("key", "")` (possibly `None`, which never equals a string)
and `name = self._to_str(team.get("name", ""))`. -/
def teamMatches (search : String) (t : TeamRec) : Bool :=
  t.key == Option.some (pyUpper search) ||
  strIn (pyLower search).data (pyLower (toStrOpt t.name)).data

/-- `find_team`: first team in iteration order passing `teamMatches`. -/
def find_team (teams : List TeamRec) (search : String) : Option TeamRec :=
  teams.find? (teamMatches search)

/-! ### reader.py — state lookups -/

/-- `get_state_name`: `self.states.get(state_id, {}).get("name", "Unknown")`.
The argument is `issue.get("stateId", "")`, which is `None` when the loaded
issue's `stateId` is `None` (the key is always present); a `None` lookup
misses the map.  A found state always has a `name` entry, so its (possibly
`None`) value is returned and the `"Unknown"` default fires only on a miss. -/
def get_state_name (states : List StateRec) (sid : Option String) : Option String :=
  match sid with
  | Option.none => Option.some "Unknown"
  | Option.some s =>
      match states.find? (fun st => st.id == s) with
      | Option.some st => st.name
      | Option.none => Option.some "Unknown"

/-- `get_state_type`: as `get_state_name` with default `"unknown"`. -/
def get_state_type (states : List StateRec) (sid : Option String) : Option String :=
  match sid with
  | Option.none => Option.some "unknown"
  | Option.some s =>
      match states.find? (fun st => st.id == s) with
      | Option.some st => st.type
      | Option.none => Option.some "unknown"

/-! ### reader.py — rich-text extraction (`_extract_comment_text`) -/

/-- Python iteration over a value, as used by
`"".join(extract(c) for c in content)`: lists yield their elements, strings
their one-character substrings, dicts their keys; other values raise
`TypeError`. -/
def pyIterElems : PyVal → Except String (List PyVal)
  | .list xs => .ok xs
  | .str s => .ok (s.data.map (fun c => PyVal.str ⟨[c]⟩))
  | .dict fs => .ok (fs.map (fun p => PyVal.str p.1))
  | _ => .error "TypeError"

/-- The inner `extract` of `_extract_comment_text`, with Python's raising
behaviour made explicit in `Except` and recursion depth bounded by fuel
(`extract` below instantiates the fuel so that it never runs out).  The
`text` branch returns the raw attribute value, as the Python code does; the
join `"".join(extract(c) for c in content)` is a left fold that demands a
string from every part and propagates the first failure. -/
def extractA : Nat → PyVal → Except String PyVal
  | 0, _ => .error "FUEL"
  | fuel + 1, node =>
    match node with
    | .dict fs =>
        let nt := (pyDictGet fs "type").getD (.str "")
        if pyEqStr nt "text" then .ok ((pyDictGet fs "text").getD (.str ""))
        else if pyEqStr nt "suggestion_userMentions" then
          match (pyDictGet fs "attrs").getD (.dict []) with
          | .dict afs =>
              let label := (pyDictGet afs "label").getD (.str "")
              .ok (.str (if pyTruthy label then "@" ++ pyStrVal label else ""))
          | _ => .error "AttributeError"
        else if pyEqStr nt "hardBreak" then .ok (.str "\n")
        else
          match pyIterElems ((pyDictGet fs "content").getD (.list [])) with
          | .ok elems =>
              (elems.foldl (fun (acc : Except String String) c =>
                match acc with
                | .error e => .error e
                | .ok s =>
                    match extractA fuel c with
                    | .ok (.str t) => .ok (s ++ t)
                    | .ok _ => .error "TypeError"
                    | .error e => .error e) (.ok "")).map PyVal.str
          | .error e => .error e
    | .list xs =>
        (xs.foldl (fun (acc : Except String String) c =>
          match acc with
          | .error e => .error e
          | .ok s =>
              match extractA fuel c with
              | .ok (.str t) => .ok (s ++ t)
              | .ok _ => .error "TypeError"
              | .error e => .error e) (.ok "")).map PyVal.str
    | _ => .ok (.str "")

/-- One step of the joining fold of `extractA`, named for the proofs. -/
def joinStep (fuel : Nat) (acc : Except String String) (c : PyVal) :
    Except String String :=
  match acc with
  | .error e => .error e
  | .ok s =>
      match extractA fuel c with
      | .ok (.str t) => .ok (s ++ t)
      | .ok _ => .error "TypeError"
      | .error e => .error e

mutual
/-- A fuel bound sufficient for `extractA`: one more than the nesting depth
of the value, where one level is consumed per dict/list node entered. -/
def pyDepth : PyVal → Nat
  | .dict fs => 1 + pyDepthFields fs
  | .list xs => 1 + pyDepthList xs
  | _ => 0

/-- Depth bound over the values of dict entries. -/
def pyDepthFields : List (String × PyVal) → Nat
  | [] => 0
  | (_, v) :: rest => max (pyDepth v) (pyDepthFields rest)

/-- Depth bound over list elements. -/
def pyDepthList : List PyVal → Nat
  | [] => 0
  | v :: rest => max (pyDepth v) (pyDepthList rest)
end

/-- The inner `extract` of `_extract_comment_text` with enough fuel for the
whole input: this is the function the claims speak about. -/
def extract (v : PyVal) : Except String PyVal := extractA (2 * pyDepth v + 2) v

/-- Well-formed rich-text trees, with the same fuel discipline as
`extractA`: every dict node either is a `text` node whose `text` attribute
(defaulted to `""`) is a string, a mention node whose `attrs` (defaulted to
`{}`) is a dict, a `hardBreak`, or a container whose `content` (defaulted to
`[]`) is a list of well-formed trees; lists contain well-formed trees;
scalars are well-formed. -/
def wellFormedA : Nat → PyVal → Bool
  | 0, _ => false
  | fuel + 1, node =>
    match node with
    | .dict fs =>
        let nt := (pyDictGet fs "type").getD (.str "")
        if pyEqStr nt "text" then
          match (pyDictGet fs "text").getD (.str "") with
          | .str _ => true
          | _ => false
        else if pyEqStr nt "suggestion_userMentions" then
          match (pyDictGet fs "attrs").getD (.dict []) with
          | .dict _ => true
          | _ => false
        else if pyEqStr nt "hardBreak" then true
        else
          match (pyDictGet fs "content").getD (.list []) with
          | .list xs => xs.all (wellFormedA fuel)
          | _ => false
    | .list xs => xs.all (wellFormedA fuel)
    | _ => true

/-- Well-formedness at the fuel used by `extract`. -/
def wellFormed (v : PyVal) : Bool := wellFormedA (2 * pyDepth v + 2) v

/-- `_extract_comment_text`: `None` maps to `""`; a string is parsed as JSON
(the stdlib parser is the abstract parameter `parse`, returning
`Option.none` on `json.JSONDecodeError`) and returned unchanged when
parsing fails; anything else goes to `extract`. -/
def extract_comment_text (parse : String → Option PyVal) :
    PyVal → Except String PyVal
  | .none => .ok (.str "")
  | .str s =>
      match parse s with
      | Option.none => .ok (.str s)
      | Option.some v => extract v
  | v => extract v

/-! ### server.py — datetime parsing -/

/-- Replace every occurrence of a non-empty pattern in a character list
(Python `str.replace`); the fuel is an upper bound on the characters
consumed. -/
def replaceAllAux (pat rep : List Char) : Nat → List Char → List Char
  | 0, s => s
  | _ + 1, [] => []
  | fuel + 1, c :: rest =>
      if !pat.isEmpty && List.isPrefixOf pat (c :: rest) then
        rep ++ replaceAllAux pat rep fuel (List.drop (pat.length - 1) rest)
      else c :: replaceAllAux pat rep fuel rest

/-- Python `s.replace(pat, rep)` for a non-empty pattern. -/
def pyReplace (s pat rep : String) : String :=
  ⟨replaceAllAux pat.data rep.data s.data.length s.data⟩

/-- `_parse_datetime`: numbers above `1e12` are treated as milliseconds and
divided by 1000; strings go through `datetime.fromisoformat` after the
trailing `Z` is rewritten to `+00:00` — the stdlib ISO parser is the
abstract parameter `isoParse`, returning `Option.none` on `ValueError`;
everything else parses to `None`. -/
def parse_datetime (isoParse : String → Option ℚ) : PyDateVal → Option ℚ
  | .none => Option.none
  | .num q => Option.some (if q > 1000000000000 then q / 1000 else q)
  | .str s => isoParse (pyReplace s "Z" "+00:00")
  | .other => Option.none

/-! ### server.py — snapshot, sorting, enrichment -/

/-- The entity data a query operation reads through the cache: the loaded
maps in dict-value iteration order. -/
structure Snapshot where
  teams : List TeamRec
  users : List UserRec
  states : List StateRec
  issues : List IssueRec
deriving DecidableEq

/-- The sort key component `x.get("priority") or 4`: Python `or` yields 4
both for a missing (`None`) priority and for a falsy priority `0`. -/
def priorityKey : Option Int → Int
  | Option.none => 4
  | Option.some p => if p = 0 then 4 else p

/-- Lexicographic `≤` on character lists, Python's string comparison. -/
def charListLe : List Char → List Char → Bool
  | [], _ => true
  | _ :: _, [] => false
  | a :: as, b :: bs => a < b || (a == b && charListLe as bs)

/-- Lexicographic `≤` on Python tuples `(int, str)`. -/
def keyLe (a b : Int × List Char) : Bool :=
  a.1 < b.1 || (a.1 == b.1 && charListLe a.2 b.2)

/-- The sort key of the issue queries:
`(x.get("priority") or 4, x.get("id", ""))`. -/
def issueKey (i : IssueRec) : Int × List Char := (priorityKey i.priority, i.id.data)

/-- The canonical order on issues induced by `issueKey`. -/
def issueLe (a b : IssueRec) : Prop := keyLe (issueKey a) (issueKey b) = true

instance : DecidableRel issueLe := fun _ _ => inferInstanceAs (Decidable (_ = true))

/-- `sorted(issues, key=lambda x: (x.get("priority") or 4, x.get("id", "")))`
— Python's stable sort modelled by stable insertion sort. -/
def sortIssues (l : List IssueRec) : List IssueRec := List.insertionSort issueLe l

/-- The issue enriched with state info, `{**issue, "state": ..., "stateType": ...}`. -/
structure EnrichedIssue where
  issue : IssueRec
  state : Option String
  stateType : Option String
deriving DecidableEq

/-- Enrichment of one issue in `list_issues` / `search_issues`. -/
def enrich (states : List StateRec) (i : IssueRec) : EnrichedIssue :=
  { issue := i
    state := get_state_name states i.stateId
    stateType := get_state_type states i.stateId }

/-! ### server.py — keyset pagination -/

/-- The cursor-skip loop shared by the three paginated operations: skip
every issue up to and including the first whose id equals the cursor; when
the cursor id never occurs, everything is skipped. -/
def dropThroughId (c : String) : List IssueRec → List IssueRec
  | [] => []
  | x :: xs => if x.id == c then xs else dropThroughId c xs

/-- `if cursor:` guard plus the skip loop — a `None` or empty cursor leaves
the list untouched. -/
def applyCursor (cursor : Option String) (l : List IssueRec) : List IssueRec :=
  match cursor with
  | Option.none => l
  | Option.some c => if c.data.isEmpty then l else dropThroughId c l

/-! ### server.py — list_issues -/

/-- Result shape of `list_issues` (`error := Option.none` models the absence
of the `"error"` key on the success and empty-result paths). -/
structure ListIssuesResult where
  error : Option String := Option.none
  issues : List EnrichedIssue
  nextCursor : Option String
  totalCount : Nat
deriving DecidableEq

/-- The `updated_after` handling at the top of `list_issues` /
`get_my_issues`: a falsy argument is ignored; otherwise a parse failure is
the user-facing invalid-format error. -/
def dateArg (isoParse : String → Option ℚ) :
    Option String → Except String (Option ℚ)
  | Option.none => .ok Option.none
  | Option.some s =>
      if s.data.isEmpty then .ok Option.none
      else
        match parse_datetime isoParse (.str s) with
        | Option.some t => .ok (Option.some t)
        | Option.none => .error ("Invalid updated_after format: " ++ s)

/-- Assignee resolution of `list_issues`: a falsy argument resolves to no
filter; otherwise `find_user` must succeed, and its failure short-circuits
to the empty result (`.error ()`). -/
def resolveAssignee (users : List UserRec) :
    Option String → Except Unit (Option String)
  | Option.none => .ok Option.none
  | Option.some s =>
      if s.data.isEmpty then .ok Option.none
      else
        match find_user users s with
        | Option.some u => .ok (Option.some u.id)
        | Option.none => .error ()

/-- Team resolution of `list_issues`, as `resolveAssignee` with `find_team`. -/
def resolveTeam (teams : List TeamRec) :
    Option String → Except Unit (Option String)
  | Option.none => .ok Option.none
  | Option.some s =>
      if s.data.isEmpty then .ok Option.none
      else
        match find_team teams s with
        | Option.some t => .ok (Option.some t.id)
        | Option.none => .error ()

/-- The filter conjunction of the `list_issues` loop, one issue at a time;
`assignee_id` and `team_id` participate only when truthy (Python
`if assignee_id and ...`), `state_type` when truthy, `priority` when not
`None`, and the `updated_after` test drops unparsable timestamps. -/
def keepIssue (isoParse : String → Option ℚ) (states : List StateRec)
    (assignee_id team_id state_type : Option String) (priority : Option Int)
    (updatedTs : Option ℚ) (i : IssueRec) : Bool :=
  (if optStrTruthy assignee_id then i.assigneeId == assignee_id else true) &&
  (if optStrTruthy team_id then i.teamId == team_id else true) &&
  (match state_type with
   | Option.some st =>
       if st.data.isEmpty then true
       else get_state_type states i.stateId == Option.some st
   | Option.none => true) &&
  (match priority with
   | Option.some p => i.priority == Option.some p
   | Option.none => true) &&
  (match updatedTs with
   | Option.some t =>
       match parse_datetime isoParse i.updatedAt with
       | Option.none => false
       | Option.some u => decide (u ≥ t)
   | Option.none => true)

/-- The canonically sorted, filtered candidate list of `list_issues`, given
the already-resolved filter parameters. -/
def canonFiltered (isoParse : String → Option ℚ) (snap : Snapshot)
    (assignee_id team_id state_type : Option String) (priority : Option Int)
    (updatedTs : Option ℚ) : List IssueRec :=
  (sortIssues snap.issues).filter
    (keepIssue isoParse snap.states assignee_id team_id state_type priority updatedTs)

/-- Last id of an enriched page, `results[-1]["id"]`. -/
def lastEnrichedId (rs : List EnrichedIssue) : Option String :=
  rs.getLast?.map (fun e => e.issue.id)

/-- `list_issues(assignee, team, state_type, priority, updated_after, limit,
cursor)`: cap the limit at 100, parse the date filter, resolve assignee and
team (either failure returning the empty result), sort and filter, count,
apply the cursor, take `limit + 1` to detect a next page, truncate to
`limit`, enrich, and report the next cursor. -/
def list_issues (isoParse : String → Option ℚ) (snap : Snapshot)
    (assignee team state_type : Option String) (priority : Option Int)
    (updated_after : Option String) (limit : Nat) (cursor : Option String) :
    ListIssuesResult :=
  let lim := min limit 100
  match dateArg isoParse updated_after with
  | .error msg => { error := Option.some msg, issues := [], nextCursor := Option.none, totalCount := 0 }
  | .ok updatedTs =>
    match resolveAssignee snap.users assignee with
    | .error _ => { issues := [], nextCursor := Option.none, totalCount := 0 }
    | .ok assignee_id =>
      match resolveTeam snap.teams team with
      | .error _ => { issues := [], nextCursor := Option.none, totalCount := 0 }
      | .ok team_id =>
        let filtered := canonFiltered isoParse snap assignee_id team_id state_type priority updatedTs
        let total := filtered.length
        let afterC := applyCursor cursor filtered
        let page := afterC.take (lim + 1)
        let hasMore := decide (lim < page.length)
        let page1 := page.take lim
        let results := page1.map (enrich snap.states)
        { issues := results
          nextCursor := if hasMore then lastEnrichedId results else Option.none
          totalCount := total }

/-- Cursor-chained page collection for `list_issues`: call the operation,
then follow `nextCursor` while it is set, concatenating the `issues`
arrays; the fuel bounds the number of calls. -/
def chainListIssues (isoParse : String → Option ℚ) (snap : Snapshot)
    (assignee team state_type : Option String) (priority : Option Int)
    (updated_after : Option String) (limit : Nat) :
    Nat → Option String → List EnrichedIssue
  | 0, _ => []
  | fuel + 1, cursor =>
      (list_issues isoParse snap assignee team state_type priority updated_after limit cursor).issues ++
        (match (list_issues isoParse snap assignee team state_type priority updated_after limit cursor).nextCursor with
         | Option.some c =>
             chainListIssues isoParse snap assignee team state_type priority updated_after limit fuel (Option.some c)
         | Option.none => [])

/-! ### server.py — search_issues -/

/-- Result shape of `search_issues`. -/
structure SearchIssuesResult where
  issues : List EnrichedIssue
  nextCursor : Option String
  matchCount : Nat
deriving DecidableEq

/-- The title filter of `search_issues`:
`query_lower in (issue.get("title", "") or "").lower()` (byte titles are
modelled as their decoded text). -/
def titleMatches (query : String) (i : IssueRec) : Bool :=
  strIn (pyLower query).data (pyLower (toStrOpt i.title)).data

/-- The canonically sorted, title-filtered candidate list of `search_issues`. -/
def searchFiltered (snap : Snapshot) (query : String) : List IssueRec :=
  (sortIssues snap.issues).filter (titleMatches query)

/-- `search_issues(query, limit, cursor)`: sort, filter by title substring,
count, and paginate exactly as `list_issues`. -/
def search_issues (snap : Snapshot) (query : String) (limit : Nat)
    (cursor : Option String) : SearchIssuesResult :=
  let lim := min limit 100
  let filtered := searchFiltered snap query
  let matchCount := filtered.length
  let afterC := applyCursor cursor filtered
  let page := afterC.take (lim + 1)
  let hasMore := decide (lim < page.length)
  let page1 := page.take lim
  let results := page1.map (enrich snap.states)
  { issues := results
    nextCursor := if hasMore then lastEnrichedId results else Option.none
    matchCount := matchCount }

/-! ### server.py — get_my_issues -/

/-- The compact per-issue summary returned by `get_my_issues`. -/
structure CompactIssue where
  id : String
  identifier : String
  title : Option String
  priority : Option Int
  state : Option String
  stateType : Option String
deriving DecidableEq

/-- The user sub-object of the `get_my_issues` payload. -/
structure MyUserInfo where
  name : Option String
  email : Option String
deriving DecidableEq

/-- Result of `get_my_issues`: either the single-key error dict or the full
payload. -/
inductive MyIssuesResult where
  | error (msg : String)
  | ok (user : MyUserInfo) (totalIssues : Nat)
      (countsByStateType : List (Option String × Nat)) (matchingCount : Nat)
      (issues : List CompactIssue) (nextCursor : Option String)
deriving DecidableEq

/-- Python `counts[k] = counts.get(k, 0) + 1` on an insertion-ordered dict. -/
def bumpCount (k : Option String) :
    List (Option String × Nat) → List (Option String × Nat)
  | [] => [(k, 1)]
  | (k1, n) :: rest =>
      if k1 == k then (k1, n + 1) :: rest else (k1, n) :: bumpCount k rest

/-- `get_issues_for_user` sorted by the canonical key: the pre-filter
candidate set of `get_my_issues` for a resolved user id. -/
def myCandidates (snap : Snapshot) (uid : String) : List IssueRec :=
  sortIssues (snap.issues.filter (fun i => i.assigneeId == Option.some uid))

/-- The per-state-type counts of `get_my_issues`, computed over the
pre-filter candidate set in iteration order. -/
def myCounts (snap : Snapshot) (uid : String) : List (Option String × Nat) :=
  (myCandidates snap uid).foldl
    (fun acc i => bumpCount (get_state_type snap.states i.stateId) acc) []

/-- The state-type and updated-after refinement of `get_my_issues`, applied
after counting; the updated-after test uses
`(_parse_datetime(...) or 0) >= updated_after_ts`. -/
def myFiltered (isoParse : String → Option ℚ) (snap : Snapshot) (uid : String)
    (state_type : Option String) (updatedTs : Option ℚ) : List IssueRec :=
  let l1 :=
    match state_type with
    | Option.some st =>
        if st.data.isEmpty then myCandidates snap uid
        else (myCandidates snap uid).filter
          (fun i => get_state_type snap.states i.stateId == Option.some st)
    | Option.none => myCandidates snap uid
  match updatedTs with
  | Option.some t =>
      l1.filter (fun i => decide (((parse_datetime isoParse i.updatedAt).getD 0) ≥ t))
  | Option.none => l1

/-- The compact rendering of one page issue in `get_my_issues`. -/
def compactOf (states : List StateRec) (i : IssueRec) : CompactIssue :=
  { id := i.id
    identifier := i.identifier
    title := i.title
    priority := i.priority
    state := get_state_name states i.stateId
    stateType := get_state_type states i.stateId }

/-- `get_my_issues(name, state_type, updated_after, limit, cursor)`: cap the
limit, parse the date filter (failure is the invalid-format error), resolve
the user by `find_user` (failure is the user-not-found error), sort the
user's issues canonically, count by state type before filtering, refine by
state type and updated-after, and paginate as the other operations. -/
def get_my_issues (isoParse : String → Option ℚ) (snap : Snapshot)
    (name : String) (state_type updated_after : Option String) (limit : Nat)
    (cursor : Option String) : MyIssuesResult :=
  let lim := min limit 100
  match dateArg isoParse updated_after with
  | .error msg => .error msg
  | .ok updatedTs =>
    match find_user snap.users name with
    | Option.none => .error ("User \x27" ++ name ++ "\x27 not found")
    | Option.some u =>
      let counts := myCounts snap u.id
      let filtered := myFiltered isoParse snap u.id state_type updatedTs
      let total_matching := filtered.length
      let afterC := applyCursor cursor filtered
      let page := afterC.take (lim + 1)
      let hasMore := decide (lim < page.length)
      let page1 := page.take lim
      let nextCursor :=
        if hasMore then (page1.getLast?.map (fun i => i.id)) else Option.none
      let results := page1.map (compactOf snap.states)
      .ok { name := u.name, email := u.email }
        (counts.foldl (fun a p => a + p.2) 0) counts total_matching results nextCursor

/-! ### Spec-side definitions (used only to compare the code against the
claims' wording) -/

/-- Modelled from the spec wording of the canonical order (claim C2): a
missing priority is treated as 4, otherwise the priority value itself is the
first key component ("lower priority number sorts first"). -/
def specPriorityKey : Option Int → Int
  | Option.none => 4
  | Option.some p => p

/-- The canonical sort key as the spec words it. -/
def specIssueKey (i : IssueRec) : Int × List Char :=
  (specPriorityKey i.priority, i.id.data)

/-- The canonical order as the spec words it. -/
def specIssueLe (a b : IssueRec) : Prop := keyLe (specIssueKey a) (specIssueKey b) = true

instance : DecidableRel specIssueLe := fun _ _ => inferInstanceAs (Decidable (_ = true))

/-- An issue record with only id and priority populated, for concrete
examples. -/
def plainIssue (id : String) (pr : Option Int) : IssueRec :=
  { id := id
    identifier := ""
    title := Option.none
    number := Option.none
    priority := pr
    teamId := Option.none
    stateId := Option.none
    assigneeId := Option.none
    projectId := Option.none
    labelIds := []
    createdAt := .none
    updatedAt := .none }

/-- A JSON parser stub that always fails, standing in for `json.loads` on
non-JSON input. -/
def jsonParseNone : String → Option PyVal := fun _ => Option.none

/-- An ISO-8601 parser stub that always fails, standing in for
`datetime.fromisoformat` on unparsable input. -/
def isoParseNone : String → Option ℚ := fun _ => Option.none

/-! ### Order lemmas for the canonical sort -/

/-- Totality of lexicographic `≤` on character lists. -/
theorem charListLe_total (a : List Char) :
    ∀ b, charListLe a b = true ∨ charListLe b a = true := by
  induction a with
  | nil => intro b; left; rfl
  | cons c as ih =>
    intro b
    cases b with
    | nil => right; rfl
    | cons d bs =>
      rcases lt_trichotomy c d with h | h | h
      · left; simp [charListLe, h]
      · subst h
        rcases ih bs with h2 | h2
        · left; simp [charListLe, h2]
        · right; simp [charListLe, h2]
      · right; simp [charListLe, h]

/-- Transitivity of lexicographic `≤` on character lists. -/
theorem charListLe_trans (a : List Char) :
    ∀ b c, charListLe a b = true → charListLe b c = true → charListLe a c = true := by
  induction a with
  | nil => intro b c _ _; rfl
  | cons x as ih =>
    intro b c hab hbc
    cases b with
    | nil => simp [charListLe] at hab
    | cons y bs =>
      cases c with
      | nil => simp [charListLe] at hbc
      | cons z cs =>
        simp only [charListLe, Bool.or_eq_true, Bool.and_eq_true, beq_iff_eq,
          decide_eq_true_eq] at hab hbc ⊢
        rcases hab with h1 | ⟨h1, h1r⟩
        · rcases hbc with h2 | ⟨h2, _⟩
          · exact Or.inl (lt_trans h1 h2)
          · exact Or.inl (h2 ▸ h1)
        · rcases hbc with h2 | ⟨h2, h2r⟩
          · exact Or.inl (h1 ▸ h2)
          · exact Or.inr ⟨h1.trans h2, ih bs cs h1r h2r⟩

/-- Totality of the tuple order `keyLe`. -/
theorem keyLe_total (a b : Int × List Char) :
    keyLe a b = true ∨ keyLe b a = true := by
  simp only [keyLe, Bool.or_eq_true, Bool.and_eq_true, beq_iff_eq, decide_eq_true_eq]
  rcases lt_trichotomy a.1 b.1 with h | h | h
  · exact Or.inl (Or.inl h)
  · rcases charListLe_total a.2 b.2 with h2 | h2
    · exact Or.inl (Or.inr ⟨h, h2⟩)
    · exact Or.inr (Or.inr ⟨h.symm, h2⟩)
  · exact Or.inr (Or.inl h)

/-- Transitivity of the tuple order `keyLe`. -/
theorem keyLe_trans (a b c : Int × List Char) :
    keyLe a b = true → keyLe b c = true → keyLe a c = true := by
  simp only [keyLe, Bool.or_eq_true, Bool.and_eq_true, beq_iff_eq, decide_eq_true_eq]
  rintro (h1 | ⟨h1, h1r⟩) (h2 | ⟨h2, h2r⟩)
  · exact Or.inl (lt_trans h1 h2)
  · exact Or.inl (h2 ▸ h1)
  · exact Or.inl (h1 ▸ h2)
  · exact Or.inr ⟨h1.trans h2, charListLe_trans _ _ _ h1r h2r⟩

instance : IsTotal IssueRec issueLe := ⟨fun a b => keyLe_total (issueKey a) (issueKey b)⟩

instance : IsTrans IssueRec issueLe :=
  ⟨fun a b c => keyLe_trans (issueKey a) (issueKey b) (issueKey c)⟩

/-! ### Claim C7 — cache TTL -/

/-- C7: a snapshot reload is triggered exactly when `now - loaded_at > 300`
seconds or when the snapshot has no team loaded; with a non-empty team map a
query 299 seconds after loading does not reload and one 301 seconds after
loading does. -/
theorem claim_c7_reload_ttl (c : CacheState) (now : ℚ) (h : c.teams ≠ []) :
    (reloadTriggered now c = true ↔ (now - c.loaded_at > 300 ∨ c.teams = [])) ∧
    reloadTriggered (c.loaded_at + 299) c = false ∧
    reloadTriggered (c.loaded_at + 301) c = true := by
  refine ⟨?_, ?_, ?_⟩
  · simp [reloadTriggered, is_expired, CACHE_TTL_SECONDS, List.isEmpty_iff]
  · simp [reloadTriggered, is_expired, CACHE_TTL_SECONDS, List.isEmpty_iff, h]
    norm_num
  · simp [reloadTriggered, is_expired, CACHE_TTL_SECONDS, List.isEmpty_iff]
    norm_num

/-- Witness for C7 at a concrete cache state loaded at time 0 with one team. -/
theorem claim_c7_reload_ttl_witness :
    reloadTriggered ((0 : ℚ) + 299) ⟨[⟨"t", Option.none, Option.none⟩], 0⟩ = false ∧
    reloadTriggered ((0 : ℚ) + 301) ⟨[⟨"t", Option.none, Option.none⟩], 0⟩ = true :=
  (claim_c7_reload_ttl ⟨[⟨"t", Option.none, Option.none⟩], 0⟩ 0 (by decide)).2

/-! ### Claim C2 — canonical sort order -/

/-- C2 counterexample: the code's sort key is `x.get("priority") or 4`, and
Python `or` sends the falsy priority `0` to 4 as well, so an issue with
priority 0 is NOT sorted by "lower priority number first": against an issue
with priority 1 it comes last, while the claim's key (priority-or-4 only
when missing) demands it come first. -/
theorem claim_c2_counterexample :
    sortIssues [plainIssue "2" (Option.some 0), plainIssue "1" (Option.some 1)] =
      [plainIssue "1" (Option.some 1), plainIssue "2" (Option.some 0)] ∧
    specIssueLe (plainIssue "2" (Option.some 0)) (plainIssue "1" (Option.some 1)) ∧
    ¬ specIssueLe (plainIssue "1" (Option.some 1)) (plainIssue "2" (Option.some 0)) ∧
    ¬ List.Sorted specIssueLe
        (sortIssues [plainIssue "2" (Option.some 0), plainIssue "1" (Option.some 1)]) := by
  refine ⟨by decide, by decide, by decide, ?_⟩
  intro hs
  have := List.rel_of_pairwise_cons hs (by decide : plainIssue "2" (Option.some 0) ∈ _)
  revert this
  decide

/-- C2 (amended): before filtering and pagination the issues are sorted into
the canonical total order ascending by `(priority-or-4, id)`, where a
missing priority — and, by Python `or`, a priority of 0 — is treated as 4,
lower key first and ties broken lexicographically by id; the sort is a
permutation of the input, and the spec's example A(priority=1,id="2"),
B(priority=1,id="1"), C(priority=None,id="3") orders as B, A, C. -/
theorem claim_c2_canonical_sort (l : List IssueRec) :
    List.Sorted issueLe (sortIssues l) ∧ (sortIssues l).Perm l ∧
    sortIssues
        [plainIssue "2" (Option.some 1), plainIssue "1" (Option.some 1),
         plainIssue "3" Option.none] =
      [plainIssue "1" (Option.some 1), plainIssue "2" (Option.some 1),
       plainIssue "3" Option.none] :=
  ⟨List.sorted_insertionSort issueLe l, List.perm_insertionSort issueLe l, by decide⟩

/-! ### Claim C8 — store detection -/

/-- A table that the `detect_stores` loop would classify as the issue table
when the issue slot is free: name not screened out, first record a dict, and
the issue predicate true. -/
def issueTableCandidate (t : StoreTable) : Bool :=
  !storeNameSkipped t.name &&
  (match t.firstRecord with
   | Option.some (.dict fs) => is_issue_record fs
   | _ => false)

/-- A table whose first-matching predicate in the chain is User: name not
screened out, first record a dict, user-like but neither issue-like nor
team-like (those branches are tried first). -/
def userTableCandidate (t : StoreTable) : Bool :=
  !storeNameSkipped t.name &&
  (match t.firstRecord with
   | Option.some (.dict fs) =>
       is_user_record fs && !is_issue_record fs && !is_team_record fs
   | _ => false)

/-- Case analysis of one `detect_stores` loop iteration: each single-slot
kind is unchanged unless it was unset, and the two list kinds either stay
or append one table name that was not yet present. -/
theorem detectStep_cases (r : DetectedStores) (t : StoreTable) :
    ((detectStep r t).issues = r.issues ∨
      (r.issues = Option.none ∧ (detectStep r t).issues = t.name)) ∧
    ((detectStep r t).teams = r.teams ∨
      (r.teams = Option.none ∧ (detectStep r t).teams = t.name)) ∧
    ((detectStep r t).comments = r.comments ∨
      (r.comments = Option.none ∧ (detectStep r t).comments = t.name)) ∧
    ((detectStep r t).projects = r.projects ∨
      (r.projects = Option.none ∧ (detectStep r t).projects = t.name)) ∧
    ((detectStep r t).users = r.users ∨
      ∃ nm, t.name = Option.some nm ∧ nm ∉ r.users ∧
        (detectStep r t).users = r.users ++ [nm]) ∧
    ((detectStep r t).workflow_states = r.workflow_states ∨
      ∃ nm, t.name = Option.some nm ∧ nm ∉ r.workflow_states ∧
        (detectStep r t).workflow_states = r.workflow_states ++ [nm]) := by
  rcases t with ⟨nm, fr⟩
  by_cases hs : storeNameSkipped nm = true
  · simp [detectStep, hs]
  · cases nm with
    | none => simp [storeNameSkipped] at hs
    | some n =>
      cases fr with
      | none => simp [detectStep, hs]
      | some v =>
        cases v with
        | dict fs =>
            simp only [detectStep, hs, Bool.false_eq_true, if_false]
            split_ifs with h1 h2 h3 h4 h5 h6 <;>
              simp_all [Option.isNone_iff_eq_none, List.elem_eq_mem]
        | none => simp [detectStep, hs]
        | bool b => simp [detectStep, hs]
        | int m => simp [detectStep, hs]
        | str s => simp [detectStep, hs]
        | list xs => simp [detectStep, hs]

/-- The issue slot of one iteration in closed form. -/
theorem detectStep_issues (r : DetectedStores) (t : StoreTable) :
    (detectStep r t).issues =
      if r.issues = Option.none ∧ issueTableCandidate t = true then t.name
      else r.issues := by
  rcases t with ⟨nm, fr⟩
  by_cases hs : storeNameSkipped nm = true
  · simp [detectStep, issueTableCandidate, hs]
  · cases nm with
    | none => simp [storeNameSkipped] at hs
    | some n =>
      cases fr with
      | none => simp [detectStep, issueTableCandidate, hs]
      | some v =>
        cases v with
        | dict fs =>
            simp only [detectStep, issueTableCandidate, hs, Bool.false_eq_true,
              if_false, Bool.not_false, Bool.true_and]
            split_ifs with h1 h2 h3 h4 h5 h6 <;>
              simp_all [Option.isNone_iff_eq_none]
        | none => simp [detectStep, issueTableCandidate, hs]
        | bool b => simp [detectStep, issueTableCandidate, hs]
        | int m => simp [detectStep, issueTableCandidate, hs]
        | str s => simp [detectStep, issueTableCandidate, hs]
        | list xs => simp [detectStep, issueTableCandidate, hs]

/-- Once the issue slot is set, the rest of the fold keeps it. -/
theorem detect_foldl_issues_stable :
    ∀ (tables : List StoreTable) (r : DetectedStores) (nm : String),
      r.issues = Option.some nm →
      (tables.foldl detectStep r).issues = Option.some nm := by
  intro tables
  induction tables with
  | nil => intro r nm h; exact h
  | cons t ts ih =>
      intro r nm h
      rw [List.foldl_cons]
      apply ih
      rw [detectStep_issues]
      simp [h]

/-- With the issue slot unset, the fold assigns it to the first candidate
table. -/
theorem detect_issues_eq_find :
    ∀ (tables : List StoreTable) (r : DetectedStores), r.issues = Option.none →
      (tables.foldl detectStep r).issues =
        (tables.find? issueTableCandidate).bind (fun t => t.name) := by
  intro tables
  induction tables with
  | nil => intro r h; simpa using h
  | cons t ts ih =>
      intro r h
      rw [List.foldl_cons]
      by_cases hc : issueTableCandidate t = true
      · obtain ⟨nm, hnm⟩ : ∃ nm, t.name = Option.some nm := by
          rcases t with ⟨nm, fr⟩
          cases nm with
          | none => simp [issueTableCandidate, storeNameSkipped] at hc
          | some n => exact ⟨n, rfl⟩
        have hstep : (detectStep r t).issues = Option.some nm := by
          rw [detectStep_issues]; simp [h, hc, hnm]
        rw [List.find?_cons_of_pos _ hc]
        simpa [hnm] using detect_foldl_issues_stable ts _ nm hstep
      · have hstep : (detectStep r t).issues = Option.none := by
          rw [detectStep_issues]; simp [h, hc]
        rw [List.find?_cons_of_neg _ hc]
        exact ih _ hstep

/-- The users list only grows along the fold. -/
theorem detect_foldl_users_mono :
    ∀ (tables : List StoreTable) (r : DetectedStores) (nm : String),
      nm ∈ r.users → nm ∈ (tables.foldl detectStep r).users := by
  intro tables
  induction tables with
  | nil => intro r nm h; exact h
  | cons t ts ih =>
      intro r nm h
      rw [List.foldl_cons]
      apply ih
      rcases (detectStep_cases r t).2.2.2.2.1 with h1 | ⟨nm1, _, _, h1⟩ <;>
        simp [h1, h]

/-- Processing a user-candidate table leaves its name in the users list. -/
theorem detectStep_user_mem (r : DetectedStores) (t : StoreTable) (nm : String)
    (hc : userTableCandidate t = true) (hnm : t.name = Option.some nm) :
    nm ∈ (detectStep r t).users := by
  rcases t with ⟨nm0, fr⟩
  cases hnm
  have hs : storeNameSkipped (Option.some nm) = false := by
    rcases h : storeNameSkipped (Option.some nm) with _ | _
    · rfl
    · simp [userTableCandidate, h] at hc
  cases fr with
  | none => simp [userTableCandidate, hs] at hc
  | some v =>
    cases v with
    | dict fs =>
        simp only [userTableCandidate, hs, Bool.not_false, Bool.true_and] at hc
        have hu : is_user_record fs = true := by
          rcases Bool.and_eq_true_iff.mp hc with ⟨h1, _⟩
          exact (Bool.and_eq_true_iff.mp h1).1
        have hi : is_issue_record fs = false := by
          rcases Bool.and_eq_true_iff.mp hc with ⟨h1, _⟩
          simpa using (Bool.and_eq_true_iff.mp h1).2
        have ht : is_team_record fs = false := by
          simpa using (Bool.and_eq_true_iff.mp hc).2
        by_cases hmem : nm ∈ r.users
        · rcases (detectStep_cases r ⟨Option.some nm, Option.some (.dict fs)⟩).2.2.2.2.1
            with h1 | ⟨nm1, _, _, h1⟩ <;> simp [h1, hmem]
        · simp only [detectStep, hs, Bool.false_eq_true, if_false]
          rw [if_neg (by simp [hi]), if_neg (by simp [ht]),
            if_pos (by simp [hu, List.elem_eq_mem, hmem])]
          simp
    | none => simp [userTableCandidate, hs] at hc
    | bool b => simp [userTableCandidate, hs] at hc
    | int m => simp [userTableCandidate, hs] at hc
    | str s => simp [userTableCandidate, hs] at hc
    | list xs => simp [userTableCandidate, hs] at hc

/-- Every user-candidate table of the scan ends up in the users list. -/
theorem detect_users_complete :
    ∀ (tables : List StoreTable) (r : DetectedStores) (t : StoreTable),
      t ∈ tables → userTableCandidate t = true →
      ∀ nm, t.name = Option.some nm → nm ∈ (tables.foldl detectStep r).users := by
  intro tables
  induction tables with
  | nil => intro r t h; simp at h
  | cons t1 ts ih =>
      intro r t hmem hc nm hnm
      rw [List.foldl_cons]
      rcases List.mem_cons.mp hmem with rfl | hmem1
      · exact detect_foldl_users_mono ts _ nm (detectStep_user_mem r t nm hc hnm)
      · exact ih _ t hmem1 hc nm hnm

/-- The users and workflow-state lists of the fold stay duplicate-free. -/
theorem detect_foldl_nodup :
    ∀ (tables : List StoreTable) (r : DetectedStores),
      r.users.Nodup → r.workflow_states.Nodup →
      (tables.foldl detectStep r).users.Nodup ∧
      (tables.foldl detectStep r).workflow_states.Nodup := by
  intro tables
  induction tables with
  | nil => intro r h1 h2; exact ⟨h1, h2⟩
  | cons t ts ih =>
      intro r h1 h2
      rw [List.foldl_cons]
      apply ih
      · rcases (detectStep_cases r t).2.2.2.2.1 with h | ⟨nm, _, hnin, h⟩
        · rw [h]; exact h1
        · rw [h]; simp [List.nodup_append, h1, hnin]
      · rcases (detectStep_cases r t).2.2.2.2.2 with h | ⟨nm, _, hnin, h⟩
        · rw [h]; exact h2
        · rw [h]; simp [List.nodup_append, h2, hnin]

/-- The spec's example issue record: the four issue fields plus an extra
field. -/
def c8IssueRecordEx : List (String × PyVal) :=
  [("number", .int 1), ("teamId", .str "t"), ("stateId", .str "s"),
   ("title", .str "x"), ("extra", .int 1)]

/-- A sample table whose first record is user-like and neither issue-like
nor team-like. -/
def c8UserTable : StoreTable :=
  ⟨Option.some "u1",
   Option.some (.dict [("name", .str "A"), ("displayName", .str "a"),
     ("email", .str "e"), ("avatarUrl", .str "u")])⟩

/-- A sample table list: one issue-like table and one user-like table. -/
def c8Tables : List StoreTable :=
  [⟨Option.some "t1", Option.some (.dict c8IssueRecordEx)⟩, c8UserTable]

/-- C8: `detect_stores` classifies by the sampled first record with superset
field matching (the issue predicate is exactly "the four issue fields are
present", extra fields permitted, and the spec's example record with an
extra field is classified as the issue table); the issue slot goes to the
first candidate table and is never overwritten; an issue-like record claims
its table before any other predicate is tried, touching no other slot; every
table whose first matching predicate is User is collected in the users list;
and the users and workflow-state lists never hold a duplicate table name. -/
theorem claim_c8_detect_stores :
    (∀ fs : List (String × PyVal),
        is_issue_record fs = true ↔
          ∀ k ∈ ["number", "teamId", "stateId", "title"], pyHasKey fs k = true) ∧
    (detect_stores [⟨Option.some "t1", Option.some (.dict c8IssueRecordEx)⟩]).issues
        = Option.some "t1" ∧
    (∀ tables : List StoreTable,
        (detect_stores tables).issues =
          (tables.find? issueTableCandidate).bind (fun t => t.name)) ∧
    (∀ (r : DetectedStores) (nm : String) (fs : List (String × PyVal)),
        storeNameSkipped (Option.some nm) = false → is_issue_record fs = true →
        r.issues = Option.none →
        detectStep r ⟨Option.some nm, Option.some (.dict fs)⟩ =
          { r with issues := Option.some nm }) ∧
    (∀ (tables : List StoreTable) (t : StoreTable) (nm : String),
        t ∈ tables → userTableCandidate t = true → t.name = Option.some nm →
        nm ∈ (detect_stores tables).users) ∧
    (∀ tables : List StoreTable,
        (detect_stores tables).users.Nodup ∧
        (detect_stores tables).workflow_states.Nodup) := by
  refine ⟨?_, by decide, ?_, ?_, ?_, ?_⟩
  · intro fs
    simp [is_issue_record, List.all_eq_true]
  · intro tables
    exact detect_issues_eq_find tables {} rfl
  · intro r nm fs hs hi hn
    simp [detectStep, hs, hi, Option.isNone_iff_eq_none, hn]
  · intro tables t nm hmem hc hnm
    exact detect_users_complete tables {} t hmem hc nm hnm
  · intro tables
    exact detect_foldl_nodup tables {} List.nodup_nil List.nodup_nil

/-- Witness for C8: in the sample table list, the user-like table is
collected in the users list (and, concretely, detection fills both slots). -/
theorem claim_c8_detect_stores_witness :
    "u1" ∈ (detect_stores c8Tables).users ∧
    (detect_stores c8Tables).issues = Option.some "t1" :=
  ⟨claim_c8_detect_stores.2.2.2.2.1 c8Tables c8UserTable "u1"
      (List.mem_cons_of_mem _ (List.mem_cons_self _ _)) (by decide) rfl,
   by decide⟩

/-! ### Claim C3 — issue identifiers -/

/-- Digit characters are in the `\d` class. -/
theorem digitChar_isDigit (d : Nat) (h : d < 10) : isDigitC (digitChar d) = true := by
  interval_cases d <;> decide

/-- Every character produced by the decimal renderer is a digit. -/
theorem natDigitsAux_all_digits :
    ∀ (fuel n : Nat), (natDigitsAux fuel n).all isDigitC = true := by
  intro fuel
  induction fuel with
  | zero => intro n; rfl
  | succ m ih =>
      intro n
      by_cases h : n < 10
      · simp [natDigitsAux, h, digitChar_isDigit n h]
      · simp only [natDigitsAux, h, if_false, List.all_append]
        refine Bool.and_eq_true_iff.mpr ⟨ih (n / 10), ?_⟩
        simp [digitChar_isDigit (n % 10) (Nat.mod_lt _ (by norm_num))]

/-- The decimal renderer never produces the empty string. -/
theorem natDigitsAux_ne_nil (fuel n : Nat) (h : fuel ≠ 0) :
    natDigitsAux fuel n ≠ [] := by
  cases fuel with
  | zero => exact absurd rfl h
  | succ m =>
      by_cases h10 : n < 10 <;> simp [natDigitsAux, h10]

/-- `str(i)` of a non-negative integer is `natStr` of its absolute value. -/
theorem intStr_ofNat (n : Nat) : intStr ((n : Nat) : Int) = natStr n := by
  unfold intStr
  rw [if_neg (Int.not_lt.mpr (Int.natCast_nonneg n))]
  congr 1

/-- A key accepted by the detector's team-key test is non-empty and consists
of uppercase ASCII letters. -/
theorem teamKeyOk_chars (k : String) (h : teamKeyOk k = true) :
    k.data ≠ [] ∧ ∀ c ∈ k.data, isUpperAZ c = true := by
  simp only [teamKeyOk, pyIsUpper, pyIsAlpha, Bool.and_eq_true_iff,
    Bool.not_eq_true', List.all_eq_true, List.any_eq_true,
    Bool.or_eq_true, Bool.not_eq_eq_eq_not] at h
  obtain ⟨⟨⟨_, hcase⟩, hne, halpha⟩, _⟩ := h
  refine ⟨by simpa using hne, fun c hc => ?_⟩
  rcases hcase c hc with h1 | h1
  · exact absurd (halpha c hc) (by simp [h1])
  · exact h1

/-- An uppercase letter is not a hyphen. -/
theorem isUpperAZ_ne_dash (c : Char) (h : isUpperAZ c = true) : c ≠ '-' := by
  intro hc
  subst hc
  exact absurd h (by decide)

/-- An uppercase letter is not a question mark. -/
theorem isUpperAZ_ne_qm (c : Char) (h : isUpperAZ c = true) : c ≠ '?' := by
  intro hc
  subst hc
  exact absurd h (by decide)

/-- The identifier-pattern tail accepts uppercase letters, then the hyphen,
then a non-empty run of digits. -/
theorem identTail_append (ks : List Char) :
    ∀ ds : List Char, (∀ c ∈ ks, isUpperAZ c = true) → ds ≠ [] →
      ds.all isDigitC = true → identTail (ks ++ '-' :: ds) = true := by
  induction ks with
  | nil =>
      intro ds _ hne hdig
      simp [identTail, List.isEmpty_iff, hne, hdig]
  | cons c ks ih =>
      intro ds hup hne hdig
      have hc : isUpperAZ c = true := hup c (List.mem_cons_self _ _)
      have hcd : (c == '-') = false := by
        simp [isUpperAZ_ne_dash c hc]
      simp only [List.cons_append, identTail, hcd, Bool.false_eq_true, if_false,
        Bool.and_eq_true_iff, Bool.or_eq_true]
      exact ⟨Or.inl hc, ih ds (fun d hd => hup d (List.mem_cons_of_mem _ hd)) hne hdig⟩

/-- `<KEY>-<digits>` matches the identifier pattern for a well-formed team
key and a natural number. -/
theorem matchesIdentPattern_key (k : String) (n : Nat) (hk : teamKeyOk k = true) :
    matchesIdentPattern (k ++ "-" ++ natStr n) = true := by
  obtain ⟨hne, hup⟩ := teamKeyOk_chars k hk
  have hdata : (k ++ "-" ++ natStr n).data = k.data ++ '-' :: (natStr n).data := by
    simp [String.data_append]
  rcases hkd : k.data with _ | ⟨c, rest⟩
  · exact absurd hkd hne
  · have hc : isUpperAZ c = true := hup c (by rw [hkd]; exact List.mem_cons_self _ _)
    have hrest : ∀ d ∈ rest, isUpperAZ d = true := by
      intro d hd
      exact hup d (by rw [hkd]; exact List.mem_cons_of_mem _ hd)
    have hdign : (natStr n).data ≠ [] := natDigitsAux_ne_nil (n + 1) n (by omega)
    have hdig : (natStr n).data.all isDigitC = true := natDigitsAux_all_digits (n + 1) n
    simp only [matchesIdentPattern, hdata, hkd, List.cons_append, Bool.and_eq_true_iff,
      Bool.or_eq_true]
    exact ⟨Or.inl hc, identTail_append rest (natStr n).data hrest hdign hdig⟩

/-- A member of the inserted issue map is either old or the inserted issue. -/
theorem dictInsertIssue_mem (l : List IssueRec) (x y : IssueRec)
    (h : y ∈ dictInsertIssue l x) : y ∈ l ∨ y = x := by
  unfold dictInsertIssue at h
  split at h
  · rcases List.mem_map.mp h with ⟨z, hz, hzy⟩
    by_cases hid : z.id == x.id
    · right; rw [if_pos hid] at hzy; exact hzy.symm
    · left; rw [if_neg hid] at hzy; exact hzy ▸ hz
  · rcases List.mem_append.mp h with h1 | h1
    · exact Or.inl h1
    · right; simpa using h1

/-- Every entry of the issue map built by the issues pass comes from one of
the raw records via `mkIssueRec`. -/
theorem loadIssues_provenance (tm : List TeamRec) :
    ∀ (raws : List RawIssueVal) (acc : List IssueRec) (y : IssueRec),
      y ∈ raws.foldl (fun a v => dictInsertIssue a (mkIssueRec tm v)) acc →
      y ∈ acc ∨ ∃ v ∈ raws, y = mkIssueRec tm v := by
  intro raws
  induction raws with
  | nil => intro acc y h; exact Or.inl h
  | cons v vs ih =>
      intro acc y h
      rw [List.foldl_cons] at h
      rcases ih _ y h with h1 | ⟨w, hw, hyw⟩
      · rcases dictInsertIssue_mem _ _ _ h1 with h2 | h2
        · exact Or.inl h2
        · exact Or.inr ⟨v, List.mem_cons_self _ _, h2⟩
      · exact Or.inr ⟨w, List.mem_cons_of_mem _ hw, hyw⟩

/-- A successful team lookup returns a member of the team map. -/
theorem teamLookup_mem (tm : List TeamRec) (tid : Option String) (t : TeamRec)
    (h : teamLookup tm tid = Option.some t) : t ∈ tm := by
  cases tid with
  | none => simp [teamLookup] at h
  | some s => exact List.mem_of_find?_eq_some h

/-- C3: in a loaded snapshot every issue comes from a raw record whose
identifier is computed against the team map of the same load pass; with a
matching team the identifier is `<team.key>-<number>`, and it is
`???-<number>` exactly when the `teamId` has no matching team (the "exactly"
direction holding when all loaded team keys pass the detector's team-key
shape, which precludes a literal `???` key); with a resolvable team whose
key is well-formed and a natural `number`, the identifier matches
`^[A-Z???][A-Z0-9]*-\d+$`. -/
theorem claim_c3_issue_identifier (rawTeams : List RawTeamVal)
    (rawIssues : List RawIssueVal)
    (hkeys : ∀ t ∈ loadTeams rawTeams, ∃ k, t.key = Option.some k ∧ teamKeyOk k = true) :
    (∀ i ∈ loadIssues (loadTeams rawTeams) rawIssues,
        ∃ v ∈ rawIssues, i = mkIssueRec (loadTeams rawTeams) v) ∧
    (∀ (v : RawIssueVal) (t : TeamRec),
        teamLookup (loadTeams rawTeams) v.teamId = Option.some t →
        (∀ k, t.key = Option.some k →
            issueIdentifier (loadTeams rawTeams) v = k ++ "-" ++ fstrOptInt v.number) ∧
        (∀ n : Nat, v.number = Option.some (n : Int) →
            matchesIdentPattern (issueIdentifier (loadTeams rawTeams) v) = true)) ∧
    (∀ v : RawIssueVal,
        teamLookup (loadTeams rawTeams) v.teamId = Option.none →
        issueIdentifier (loadTeams rawTeams) v = "???-" ++ fstrOptInt v.number) ∧
    (∀ v : RawIssueVal,
        strStarts "???-" (issueIdentifier (loadTeams rawTeams) v) = true ↔
        teamLookup (loadTeams rawTeams) v.teamId = Option.none) := by
  refine ⟨?_, ?_, ?_, ?_⟩
  · intro i hi
    rcases loadIssues_provenance (loadTeams rawTeams) rawIssues [] i hi with h | h
    · simp at h
    · exact h
  · intro v t hl
    obtain ⟨k, hk, hko⟩ := hkeys t (teamLookup_mem _ _ _ hl)
    constructor
    · intro k1 hk1
      simp [issueIdentifier, hl, hk1, fstrOptStr]
    · intro n hn
      have : issueIdentifier (loadTeams rawTeams) v = k ++ "-" ++ natStr n := by
        simp only [issueIdentifier, hl, hk, fstrOptStr, hn, fstrOptInt, intStr_ofNat]
      rw [this]
      exact matchesIdentPattern_key k n hko
  · intro v hl
    simp [issueIdentifier, hl]
  · intro v
    cases hl : teamLookup (loadTeams rawTeams) v.teamId with
    | none =>
        simp only [issueIdentifier, hl, iff_true]
        simp [strStarts, String.data_append, List.isPrefixOf_iff_prefix]
    | some t =>
        obtain ⟨k, hk, hko⟩ := hkeys t (teamLookup_mem _ _ _ hl)
        obtain ⟨hne, hup⟩ := teamKeyOk_chars k hko
        simp only [issueIdentifier, hl, hk, fstrOptStr]
        refine iff_of_false ?_ (by simp)
        rcases hkd : k.data with _ | ⟨c, rest⟩
        · exact absurd hkd hne
        · have hc : isUpperAZ c = true := hup c (by rw [hkd]; exact List.mem_cons_self _ _)
          have hqc : ('?' == c) = false := by
            simp [(isUpperAZ_ne_qm c hc).symm]
          intro hpre
          rw [strStarts] at hpre
          have hdata : (k ++ "-" ++ fstrOptInt v.number).data
              = c :: (rest ++ '-' :: (fstrOptInt v.number).data) := by
            simp [String.data_append, hkd]
          rw [hdata] at hpre
          simp only [List.isPrefixOf, hqc, Bool.false_and] at hpre
          exact absurd hpre (by simp)

/-- A sample raw team for the C3 witness. -/
def demoRawTeam : RawTeamVal := ⟨"tid", Option.some "ENG", Option.some "Engineering"⟩

/-- A sample raw issue for the C3 witness, assigned to the sample team. -/
def demoRawIssue : RawIssueVal :=
  ⟨"iid", Option.some "Fix", Option.some 42, Option.some 1, Option.some "tid",
   Option.none, Option.none, Option.none, [], .none, .none⟩

/-- Witness for C3 at a concrete team and issue: the identifier is `ENG-42`
and matches the pattern. -/
theorem claim_c3_issue_identifier_witness :
    issueIdentifier (loadTeams [demoRawTeam]) demoRawIssue = "ENG-42" ∧
    matchesIdentPattern (issueIdentifier (loadTeams [demoRawTeam]) demoRawIssue) = true :=
  ⟨by decide,
   ((claim_c3_issue_identifier [demoRawTeam] [demoRawIssue] (by decide)).2.1
      demoRawIssue ⟨"tid", Option.some "ENG", Option.some "Engineering"⟩ (by decide)).2
     42 (by decide)⟩

/-! ### Claim C4 — find_team -/

/-- A team whose name contains the search term as a substring, iterated
before the team with the exact key match. -/
def cxTeamA : TeamRec := ⟨"id1", Option.some "AAA", Option.some "alpha beta"⟩

/-- A team whose key is exactly the uppercased search term. -/
def cxTeamB : TeamRec := ⟨"id2", Option.some "BETA", Option.some "x"⟩

/-- C4 counterexample: `find_team` is a single loop whose per-team test is
`key == search_upper or search_lower in name.lower()`, so an earlier team
matching only by name substring is returned even though a later team's key
matches the search exactly — the exact key match is NOT preferred across
teams, contrary to the claim. -/
theorem claim_c4_counterexample :
    find_team [cxTeamA, cxTeamB] "beta" = Option.some cxTeamA ∧
    cxTeamB.key = Option.some (pyUpper "beta") ∧
    cxTeamA.key ≠ Option.some (pyUpper "beta") ∧
    cxTeamA ≠ cxTeamB := by
  decide

/-- C4 (amended): `find_team` returns the first team in iteration order
matching either test — key equal to the uppercased search, or lowercased
search a substring of the lowercased name; key-before-name is only the
short-circuit inside one team's conditional, so across teams an earlier
name-substring match beats a later exact key match, and the returned team is
exactly the first matching one. -/
theorem claim_c4_find_team (teams : List TeamRec) (search : String) :
    (find_team teams search = Option.none ↔
      ∀ t ∈ teams, teamMatches search t = false) ∧
    (∀ t, find_team teams search = Option.some t →
      t ∈ teams ∧ teamMatches search t = true ∧
      ∃ pre post, teams = pre ++ t :: post ∧
        ∀ t1 ∈ pre, teamMatches search t1 = false) := by
  constructor
  · simp [find_team, List.find?_eq_none]
  · intro t
    induction teams with
    | nil => intro h; simp [find_team] at h
    | cons t1 ts ih =>
        intro h
        by_cases hm : teamMatches search t1 = true
        · rw [find_team, List.find?_cons_of_pos _ hm] at h
          cases h
          exact ⟨List.mem_cons_self _ _, hm, [], ts, rfl, by simp⟩
        · rw [find_team, List.find?_cons_of_neg _ hm] at h
          obtain ⟨hmem, hmatch, pre, post, hsplit, hpre⟩ := ih h
          refine ⟨List.mem_cons_of_mem _ hmem, hmatch, t1 :: pre, post, by rw [hsplit]; rfl, ?_⟩
          intro t2 ht2
          rcases List.mem_cons.mp ht2 with rfl | h2
          · simpa using hm
          · exact hpre t2 h2

/-- Witness for C4 (amended) at a concrete snapshot: the key-matching team
is found when it is the only match. -/
theorem claim_c4_find_team_witness :
    cxTeamB ∈ [cxTeamB] ∧ teamMatches "beta" cxTeamB = true ∧
    ∃ pre post, [cxTeamB] = pre ++ cxTeamB :: post ∧
      ∀ t1 ∈ pre, teamMatches "beta" t1 = false :=
  (claim_c4_find_team [cxTeamB] "beta").2 cxTeamB (by decide)

/-! ### Claim C5 — find_user -/

/-- First maximal element of the candidate list: the element whose score no
later candidate exceeds, with ties going to the earliest. -/
def firstMaxCand : List (Nat × UserRec) → Option (Nat × UserRec)
  | [] => Option.none
  | c :: cs =>
      match firstMaxCand cs with
      | Option.none => Option.some c
      | Option.some m => if m.1 ≤ c.1 then Option.some c else Option.some m

/-- The head of the stable descending-score sort is the first maximal
candidate. -/
theorem head_insertionSort_scoreDesc (l : List (Nat × UserRec)) :
    (List.insertionSort scoreDesc l).head? = firstMaxCand l := by
  induction l with
  | nil => rfl
  | cons c cs ih =>
      rw [List.insertionSort]
      cases hs : List.insertionSort scoreDesc cs with
      | nil =>
          rw [hs] at ih
          simp [List.orderedInsert, firstMaxCand, ← ih]
      | cons y ys =>
          rw [hs] at ih
          simp only [firstMaxCand, ← ih, List.head?]
          by_cases hd : scoreDesc c y
          · rw [List.orderedInsert, if_pos hd]
            simp [scoreDesc] at hd
            simp [hd]
          · rw [List.orderedInsert, if_neg hd]
            simp [scoreDesc] at hd
            simp [List.head?, Nat.le_of_lt hd, Nat.not_le.mpr hd]

/-- `firstMaxCand` yields no candidate exactly on the empty list. -/
theorem firstMaxCand_eq_none (l : List (Nat × UserRec)) :
    firstMaxCand l = Option.none ↔ l = [] := by
  cases l with
  | nil => simp [firstMaxCand]
  | cons c cs =>
      simp only [firstMaxCand]
      cases firstMaxCand cs with
      | none => simp
      | some m =>
          by_cases h : m.1 ≤ c.1 <;> simp [h]

/-- The first maximal candidate is a member, bounds every score, and is
preceded only by strictly smaller scores. -/
theorem firstMaxCand_spec :
    ∀ (l : List (Nat × UserRec)) (c : Nat × UserRec), firstMaxCand l = Option.some c →
      c ∈ l ∧ (∀ q ∈ l, q.1 ≤ c.1) ∧
      ∃ pre post, l = pre ++ c :: post ∧ ∀ q ∈ pre, q.1 < c.1 := by
  intro l
  induction l with
  | nil => intro c h; simp [firstMaxCand] at h
  | cons x xs ih =>
      intro c h
      rw [firstMaxCand] at h
      cases hx : firstMaxCand xs with
      | none =>
          rw [hx] at h
          cases h
          have hnil : xs = [] := (firstMaxCand_eq_none xs).mp hx
          subst hnil
          exact ⟨List.mem_cons_self _ _, by simp, [], [], rfl, by simp⟩
      | some m =>
          rw [hx] at h
          change (if m.1 ≤ x.1 then Option.some x else Option.some m) = Option.some c at h
          obtain ⟨hmem, hbound, pre, post, hsplit, hpre⟩ := ih m hx
          by_cases hc : m.1 ≤ x.1
          · rw [if_pos hc] at h
            cases h
            refine ⟨List.mem_cons_self _ _, ?_, [], xs, rfl, by simp⟩
            intro q hq
            rcases List.mem_cons.mp hq with rfl | hq1
            · exact le_refl _
            · exact (hbound q hq1).trans hc
          · rw [if_neg hc] at h
            cases h
            have hxlt : x.1 < c.1 := Nat.lt_of_not_le hc
            refine ⟨List.mem_cons_of_mem _ hmem, ?_, x :: pre, post, by rw [hsplit]; rfl, ?_⟩
            · intro q hq
              rcases List.mem_cons.mp hq with rfl | hq1
              · exact Nat.le_of_lt hxlt
              · exact hbound q hq1
            · intro q hq
              rcases List.mem_cons.mp hq with rfl | hq1
              · exact hxlt
              · exact hpre q hq1

/-- C5: `find_user` considers exactly the users whose lowercased name or
display name contains the search term, scores them 100 / 50 / 40 / 10 per
`userScore`, and returns the candidate with the highest score, ties broken
by iteration order (first found); with no candidate it returns `None`. -/
theorem claim_c5_find_user (users : List UserRec) (search : String) :
    find_user users search =
      (firstMaxCand (userCandidates users search)).map (fun c => c.2) ∧
    (find_user users search = Option.none ↔ userCandidates users search = []) ∧
    (∀ u, find_user users search = Option.some u →
      ∃ s, (s, u) ∈ userCandidates users search ∧
        (∀ q ∈ userCandidates users search, q.1 ≤ s) ∧
        ∃ pre post, userCandidates users search = pre ++ (s, u) :: post ∧
          ∀ q ∈ pre, q.1 < s) := by
  have hhead : find_user users search =
      (firstMaxCand (userCandidates users search)).map (fun c => c.2) := by
    rw [find_user, head_insertionSort_scoreDesc]
  refine ⟨hhead, ?_, ?_⟩
  · rw [hhead, ← firstMaxCand_eq_none]
    exact Option.map_eq_none'
  · intro u hu
    rw [hhead] at hu
    cases hc : firstMaxCand (userCandidates users search) with
    | none => rw [hc] at hu; simp at hu
    | some c =>
        rw [hc] at hu
        simp only [Option.map_some'] at hu
        obtain ⟨hmem, hbound, pre, post, hsplit, hpre⟩ := firstMaxCand_spec _ c hc
        cases hu
        rcases c with ⟨s, u1⟩
        exact ⟨s, hmem, hbound, pre, post, hsplit, hpre⟩

/-- A sample user whose name starts with the search term. -/
def userKessl : UserRec :=
  ⟨"u1", Option.some "Daniel Kessl", Option.some "daniel", Option.some "d@x"⟩

/-- A sample user matching the search term only mid-word. -/
def userMcDaniel : UserRec :=
  ⟨"u2", Option.some "Zachary McDaniel", Option.some "zach", Option.some "z@x"⟩

/-- Witness for C5: the spec's example — "daniel" returns Daniel Kessl
(score 100) over Zachary McDaniel (score 10), despite iteration order. -/
theorem claim_c5_find_user_witness :
    find_user [userMcDaniel, userKessl] "daniel" = Option.some userKessl ∧
    userScore "daniel" userKessl = Option.some 100 ∧
    userScore "daniel" userMcDaniel = Option.some 10 :=
  ⟨((claim_c5_find_user [userMcDaniel, userKessl] "daniel").1).trans (by decide),
   by decide, by decide⟩

/-! ### Claim C9 — get_my_issues for an unknown user -/

/-- An empty snapshot, in which no name resolves to a user. -/
def emptySnap : Snapshot := ⟨[], [], [], []⟩

/-- C9 counterexample: the `updated_after` argument is validated before the
user is resolved, so a call with an unknown name AND an unparsable
`updated_after` returns the invalid-format error object instead of the
user-not-found error object, although the name resolves to no user. -/
theorem claim_c9_counterexample :
    get_my_issues isoParseNone emptySnap "nobody" Option.none
        (Option.some "garbage") 20 Option.none
      = .error "Invalid updated_after format: garbage" ∧
    find_user emptySnap.users "nobody" = Option.none ∧
    ("Invalid updated_after format: garbage" : String) ≠
      "User \x27nobody\x27 not found" := by
  refine ⟨by decide, by decide, by decide⟩

/-- C9 (amended): for every call whose `updated_after` argument is absent or
parseable, a name that resolves to no user makes `get_my_issues` return
exactly the single-key error object `{"error": "User '<name>' not found"}` —
no issues list and no counts — rather than raising or returning an empty
page; an unparsable `updated_after` is reported first, with its own error
object. -/
theorem claim_c9_user_not_found (isoParse : String → Option ℚ) (snap : Snapshot)
    (name : String) (state_type updated_after : Option String) (limit : Nat)
    (cursor : Option String) (ts : Option ℚ)
    (hdate : dateArg isoParse updated_after = .ok ts)
    (huser : find_user snap.users name = Option.none) :
    get_my_issues isoParse snap name state_type updated_after limit cursor
      = .error ("User \x27" ++ name ++ "\x27 not found") := by
  unfold get_my_issues
  rw [hdate, huser]

/-- Witness for C9 (amended) at the empty snapshot. -/
theorem claim_c9_user_not_found_witness :
    get_my_issues isoParseNone emptySnap "nobody" Option.none Option.none 20 Option.none
      = .error "User \x27nobody\x27 not found" :=
  claim_c9_user_not_found isoParseNone emptySnap "nobody" Option.none Option.none 20
    Option.none Option.none rfl rfl

/-! ### Claim C6 — rich-text extraction -/

/-- A tag tree whose `content` attribute is a non-iterable value: the Python
`extract` raises `TypeError` on it when joining over the content. -/
def cxBadTree : PyVal := .dict [("type", .str "doc"), ("content", .int 5)]

/-- C6 counterexample: the extractor is not total on arbitrary tag trees — a
dict node whose `content` is a non-iterable (here the integer 5) makes
`"".join(extract(c) for c in content)` raise `TypeError` instead of
returning text. -/
theorem claim_c6_counterexample :
    extract_comment_text jsonParseNone cxBadTree = .error "TypeError" := rfl

/-- Auxiliary case equations for `extractA`: the container branch of a dict
node is the joining fold over the iterated content. -/
theorem extractA_dict_other (fuel : Nat) (fs : List (String × PyVal))
    (h1 : pyEqStr ((pyDictGet fs "type").getD (.str "")) "text" = false)
    (h2 : pyEqStr ((pyDictGet fs "type").getD (.str "")) "suggestion_userMentions" = false)
    (h3 : pyEqStr ((pyDictGet fs "type").getD (.str "")) "hardBreak" = false) :
    extractA (fuel + 1) (.dict fs) =
      match pyIterElems ((pyDictGet fs "content").getD (.list [])) with
      | .ok elems => (elems.foldl (joinStep fuel) (.ok "")).map PyVal.str
      | .error e => .error e := by
  rw [extractA]
  simp only [h1, h2, h3, Bool.false_eq_true, if_false]
  rfl

/-- The list branch of `extractA` is the joining fold over the elements. -/
theorem extractA_list (fuel : Nat) (xs : List PyVal) :
    extractA (fuel + 1) (.list xs) =
      (xs.foldl (joinStep fuel) (.ok "")).map PyVal.str := rfl

/-- The joining fold succeeds on a list of well-formed parts when each part
extracts to a string. -/
theorem joinFold_ok (fuel : Nat)
    (hv : ∀ v, wellFormedA fuel v = true → ∃ r, extractA fuel v = .ok (.str r)) :
    ∀ (xs : List PyVal) (init : String), xs.all (wellFormedA fuel) = true →
      ∃ r, xs.foldl (joinStep fuel) (.ok init) = .ok r := by
  intro xs
  induction xs with
  | nil => intro init _; exact ⟨init, rfl⟩
  | cons x rest ih =>
      intro init h
      obtain ⟨hx, hrest⟩ : wellFormedA fuel x = true ∧ rest.all (wellFormedA fuel) = true := by
        simpa using h
      obtain ⟨t, ht⟩ := hv x hx
      rw [List.foldl_cons]
      have hstep : joinStep fuel (.ok init) x = .ok (init ++ t) := by
        rw [joinStep, ht]
      rw [hstep]
      exact ih (init ++ t) hrest

/-- On well-formed trees the extractor (at matching fuel) returns a string. -/
theorem extract_wf_aux :
    ∀ (fuel : Nat) (v : PyVal), wellFormedA fuel v = true →
      ∃ r, extractA fuel v = .ok (.str r) := by
  intro fuel
  induction fuel with
  | zero => intro v h; exact absurd h (by simp [wellFormedA])
  | succ n ih =>
      intro v h
      cases v with
      | dict fs =>
          rw [wellFormedA] at h
          by_cases h1 : pyEqStr ((pyDictGet fs "type").getD (.str "")) "text" = true
          · rw [if_pos h1] at h
            rw [extractA]
            rw [if_pos h1]
            cases htv : (pyDictGet fs "text").getD (.str "") with
            | str s => exact ⟨s, rfl⟩
            | none => rw [htv] at h; simp at h
            | bool b => rw [htv] at h; simp at h
            | int m => rw [htv] at h; simp at h
            | list xs => rw [htv] at h; simp at h
            | dict gs => rw [htv] at h; simp at h
          · rw [if_neg h1] at h
            by_cases h2 : pyEqStr ((pyDictGet fs "type").getD (.str ""))
                "suggestion_userMentions" = true
            · rw [if_pos h2] at h
              rw [extractA]
              rw [if_neg h1, if_pos h2]
              cases hav : (pyDictGet fs "attrs").getD (.dict []) with
              | dict afs => exact ⟨_, rfl⟩
              | none => rw [hav] at h; simp at h
              | bool b => rw [hav] at h; simp at h
              | int m => rw [hav] at h; simp at h
              | str s => rw [hav] at h; simp at h
              | list xs => rw [hav] at h; simp at h
            · rw [if_neg h2] at h
              by_cases h3 : pyEqStr ((pyDictGet fs "type").getD (.str "")) "hardBreak" = true
              · rw [extractA]
                rw [if_neg h1, if_neg h2, if_pos h3]
                exact ⟨"\n", rfl⟩
              · rw [if_neg h3] at h
                rw [extractA_dict_other n fs (Bool.not_eq_true _ ▸ h1)
                  (Bool.not_eq_true _ ▸ h2) (Bool.not_eq_true _ ▸ h3)]
                cases hcont : (pyDictGet fs "content").getD (.list []) with
                | list xs =>
                    rw [hcont] at h
                    obtain ⟨r, hr⟩ := joinFold_ok n ih xs "" h
                    refine ⟨r, ?_⟩
                    simp only [pyIterElems, hr]
                    rfl
                | none => rw [hcont] at h; simp at h
                | bool b => rw [hcont] at h; simp at h
                | int m => rw [hcont] at h; simp at h
                | str s => rw [hcont] at h; simp at h
                | dict gs => rw [hcont] at h; simp at h
      | list xs =>
          rw [wellFormedA] at h
          obtain ⟨r, hr⟩ := joinFold_ok n ih xs "" h
          exact ⟨r, by rw [extractA_list, hr]; rfl⟩
      | none => exact ⟨"", rfl⟩
      | bool b => exact ⟨"", rfl⟩
      | int m => exact ⟨"", rfl⟩
      | str s => exact ⟨"", rfl⟩

/-- C6 (amended): `_extract_comment_text` is idempotent on parse-failing
strings — the raw string comes back unchanged, so a second application
agrees with the first — and it is total on every well-formed tag tree
(dict nodes whose `content` is a list, possibly empty, whose `text`
attribute is a string and whose mention `attrs` is a dict), where it
produces a string; on a dict node with a non-iterable `content` it raises,
per the counterexample. -/
theorem claim_c6_extractor (parse : String → Option PyVal) (s : String)
    (hp : parse s = Option.none) (v : PyVal) (hv : wellFormed v = true) :
    extract_comment_text parse (.str s) = .ok (.str s) ∧
    (∀ t, extract_comment_text parse (.str s) = .ok (.str t) →
        extract_comment_text parse (.str t) = .ok (.str t)) ∧
    (∃ r, extract v = .ok (.str r)) := by
  have h1 : extract_comment_text parse (.str s) = .ok (.str s) := by
    simp only [extract_comment_text]
    rw [hp]
  refine ⟨h1, ?_, ?_⟩
  · intro t ht
    rw [h1] at ht
    have hst : s = t := by
      have := Except.ok.inj ht
      exact PyVal.str.inj this
    exact hst ▸ h1
  · exact extract_wf_aux (2 * pyDepth v + 2) v hv

/-- A nested well-formed sample tree with a hard break, a mention, a text
node, and an empty content list. -/
def demoTree : PyVal :=
  .dict [("type", .str "doc"),
    ("content", .list
      [.dict [("type", .str "paragraph"),
        ("content", .list
          [.dict [("type", .str "text"), ("text", .str "hi ")],
           .dict [("type", .str "suggestion_userMentions"),
             ("attrs", .dict [("label", .str "ann")])],
           .dict [("type", .str "hardBreak")]])],
       .dict [("type", .str "paragraph"), ("content", .list [])]])]

/-- Witness for C6 at a plain string and the sample tree. -/
theorem claim_c6_extractor_witness :
    extract_comment_text jsonParseNone (.str "plain note") = .ok (.str "plain note") ∧
    ∃ r, extract demoTree = .ok (.str r) :=
  ⟨(claim_c6_extractor jsonParseNone "plain note" rfl demoTree (by decide)).1,
   (claim_c6_extractor jsonParseNone "plain note" rfl demoTree (by decide)).2.2⟩

/-! ### Claim C10 — unknown cursors drop every candidate -/

/-- The cursor-skip loop returns nothing when the cursor id never occurs. -/
theorem dropThroughId_of_not_mem (c : String) :
    ∀ l : List IssueRec, (∀ y ∈ l, y.id ≠ c) → dropThroughId c l = [] := by
  intro l
  induction l with
  | nil => intro _; rfl
  | cons x xs ih =>
      intro h
      have hx : (x.id == c) = false := by
        simp [h x (List.mem_cons_self _ _)]
      rw [dropThroughId, if_neg (by simp [hx])]
      exact ih (fun y hy => h y (List.mem_cons_of_mem _ hy))

/-- A truthy cursor that matches no id empties the list. -/
theorem applyCursor_of_not_mem (c : String) (hc : c.data ≠ []) (l : List IssueRec)
    (h : ∀ y ∈ l, y.id ≠ c) : applyCursor (Option.some c) l = [] := by
  rw [applyCursor, if_neg (by simp [hc]), dropThroughId_of_not_mem c l h]

/-- C10: a non-empty cursor that is not the id of any issue in the
canonically ordered filtered candidate list makes each of `list_issues`,
`search_issues`, and `get_my_issues` return an empty issues list and a null
`nextCursor` while still reporting the full total / match count and (for
`get_my_issues`) the full per-state counts — the skip loop never finds the
cursor id, so every candidate is dropped. -/
theorem claim_c10_unknown_cursor (isoParse : String → Option ℚ) (snap : Snapshot)
    (c : String) (hc : c.data ≠ [])
    (assignee team state_type : Option String) (priority : Option Int)
    (updated_after : Option String) (limit : Nat)
    (ts : Option ℚ) (aid tid : Option String)
    (hts : dateArg isoParse updated_after = .ok ts)
    (ha : resolveAssignee snap.users assignee = .ok aid)
    (ht : resolveTeam snap.teams team = .ok tid)
    (hmemL : ∀ i ∈ canonFiltered isoParse snap aid tid state_type priority ts, i.id ≠ c)
    (query : String)
    (hmemS : ∀ i ∈ searchFiltered snap query, i.id ≠ c)
    (name : String) (u : UserRec) (hu : find_user snap.users name = Option.some u)
    (hmemM : ∀ i ∈ myFiltered isoParse snap u.id state_type ts, i.id ≠ c) :
    list_issues isoParse snap assignee team state_type priority updated_after limit
        (Option.some c)
      = { issues := [], nextCursor := Option.none,
          totalCount := (canonFiltered isoParse snap aid tid state_type priority ts).length } ∧
    search_issues snap query limit (Option.some c)
      = { issues := [], nextCursor := Option.none,
          matchCount := (searchFiltered snap query).length } ∧
    get_my_issues isoParse snap name state_type updated_after limit (Option.some c)
      = .ok ⟨u.name, u.email⟩ ((myCounts snap u.id).foldl (fun a p => a + p.2) 0)
          (myCounts snap u.id)
          (myFiltered isoParse snap u.id state_type ts).length [] Option.none := by
  refine ⟨?_, ?_, ?_⟩
  · have happ := applyCursor_of_not_mem c hc _ hmemL
    simp [list_issues, hts, ha, ht, happ]
  · have happ := applyCursor_of_not_mem c hc _ hmemS
    simp [search_issues, happ]
  · have happ := applyCursor_of_not_mem c hc _ hmemM
    simp [get_my_issues, hts, hu, happ]

/-! ### Claim C1 — cursor-chained pagination -/

/-- The cursor-skip loop drops exactly through the (unique) occurrence of
the cursor id. -/
theorem dropThroughId_append (c : String) :
    ∀ (l1 l2 : List IssueRec) (x : IssueRec), x.id = c → (∀ y ∈ l1, y.id ≠ c) →
      dropThroughId c (l1 ++ x :: l2) = l2 := by
  intro l1
  induction l1 with
  | nil =>
      intro l2 x hx _
      rw [List.nil_append, dropThroughId, if_pos (by simp [hx])]
  | cons y ys ih =>
      intro l2 x hx h
      rw [List.cons_append, dropThroughId,
        if_neg (by simp [h y (List.mem_cons_self _ _)])]
      exact ih l2 x hx (fun z hz => h z (List.mem_cons_of_mem _ hz))

/-- The last id of an enriched page is the last id of the underlying page. -/
theorem lastEnrichedId_map_enrich (states : List StateRec) (p : List IssueRec) :
    lastEnrichedId (p.map (enrich states)) = p.getLast?.map (fun i => i.id) := by
  rw [lastEnrichedId, List.getLast?_map]
  cases p.getLast? <;> rfl

/-- Keyset pagination round trip, by induction on the page budget: if the
cursor positions the remainder `suf` of the canonically filtered list, the
chained pages starting there enrich exactly `suf`. -/
theorem chain_aux (isoParse : String → Option ℚ) (snap : Snapshot)
    (assignee team state_type : Option String) (priority : Option Int)
    (updated_after : Option String) (limit : Nat)
    (ts : Option ℚ) (aid tid : Option String)
    (hts : dateArg isoParse updated_after = .ok ts)
    (ha : resolveAssignee snap.users assignee = .ok aid)
    (ht : resolveTeam snap.teams team = .ok tid)
    (hL : 1 ≤ limit)
    (hnd : ((canonFiltered isoParse snap aid tid state_type priority ts).map
        (fun i => i.id)).Nodup)
    (hne : ∀ i ∈ canonFiltered isoParse snap aid tid state_type priority ts,
        i.id ≠ "") :
    ∀ (fuel : Nat) (cursor : Option String) (pre suf : List IssueRec),
      canonFiltered isoParse snap aid tid state_type priority ts = pre ++ suf →
      applyCursor cursor (canonFiltered isoParse snap aid tid state_type priority ts) = suf →
      suf.length + 1 ≤ fuel →
      chainListIssues isoParse snap assignee team state_type priority updated_after
          limit fuel cursor
        = suf.map (enrich snap.states) := by
  intro fuel
  induction fuel with
  | zero => intro cursor pre suf _ _ hlen; omega
  | succ n ih =>
      intro cursor pre suf hsplit hcur hlen
      have hlim1 : 1 ≤ min limit 100 := by omega
      have hcall : list_issues isoParse snap assignee team state_type priority
          updated_after limit cursor =
          { issues := ((suf.take (min limit 100 + 1)).take (min limit 100)).map
              (enrich snap.states)
            nextCursor := if decide (min limit 100 < (suf.take (min limit 100 + 1)).length)
              then lastEnrichedId (((suf.take (min limit 100 + 1)).take (min limit 100)).map
                (enrich snap.states))
              else Option.none
            totalCount := (canonFiltered isoParse snap aid tid state_type priority ts).length } := by
        simp only [list_issues, hts, ha, ht, hcur]
      rw [chainListIssues, hcall]
      by_cases hmore : min limit 100 < suf.length
      · have htk : (suf.take (min limit 100 + 1)).length = min limit 100 + 1 := by
          rw [List.length_take]; omega
        have hdec : decide (min limit 100 < (suf.take (min limit 100 + 1)).length) = true := by
          rw [htk]; simp
        have hpage : (suf.take (min limit 100 + 1)).take (min limit 100)
            = suf.take (min limit 100) := by
          rw [List.take_take]
          congr 1
          omega
        have hplen : (suf.take (min limit 100)).length = min limit 100 := by
          rw [List.length_take]; omega
        have hpne : suf.take (min limit 100) ≠ [] := by
          intro h0
          rw [h0] at hplen
          simp at hplen
          omega
        have hlast : (suf.take (min limit 100)).getLast? =
            Option.some ((suf.take (min limit 100)).getLast hpne) :=
          List.getLast?_eq_getLast _ hpne
        have hlastid : lastEnrichedId ((suf.take (min limit 100)).map (enrich snap.states))
            = Option.some ((suf.take (min limit 100)).getLast hpne).id := by
          rw [lastEnrichedId_map_enrich, hlast]
          rfl
        have hsuf : suf = suf.take (min limit 100) ++ suf.drop (min limit 100) :=
          (List.take_append_drop _ _).symm
        have hxmem : (suf.take (min limit 100)).getLast hpne ∈ suf :=
          List.mem_of_mem_take (List.getLast_mem hpne)
        have hxF : (suf.take (min limit 100)).getLast hpne ∈
            canonFiltered isoParse snap aid tid state_type priority ts := by
          rw [hsplit]
          exact List.mem_append_right _ hxmem
        have hxne : ((suf.take (min limit 100)).getLast hpne).id ≠ "" := hne _ hxF
        have hdecomp : canonFiltered isoParse snap aid tid state_type priority ts
            = (pre ++ (suf.take (min limit 100)).dropLast) ++
              ((suf.take (min limit 100)).getLast hpne) :: suf.drop (min limit 100) := by
          rw [hsplit]
          conv_lhs => rw [hsuf, ← List.dropLast_append_getLast hpne]
          simp [List.append_assoc]
        have hpre_ne : ∀ y ∈ pre ++ (suf.take (min limit 100)).dropLast,
            y.id ≠ ((suf.take (min limit 100)).getLast hpne).id := by
          intro y hy hcontra
          have hnd2 := hnd
          rw [hdecomp, List.map_append, List.map_cons, List.nodup_append] at hnd2
          exact (hnd2.2.2 (List.mem_map_of_mem _ hy))
            (by rw [hcontra]; exact List.mem_cons_self _ _)
        have hxdata : ((suf.take (min limit 100)).getLast hpne).id.data ≠ [] := by
          intro h0
          exact hxne (String.ext_iff.mpr (by simp [h0]))
        have hcur2 : applyCursor (Option.some ((suf.take (min limit 100)).getLast hpne).id)
            (canonFiltered isoParse snap aid tid state_type priority ts)
            = suf.drop (min limit 100) := by
          rw [applyCursor, if_neg (by simpa using hxdata)]
          rw [hdecomp]
          exact dropThroughId_append _ _ _ _ rfl hpre_ne
        have hrec := ih (Option.some ((suf.take (min limit 100)).getLast hpne).id)
          (pre ++ suf.take (min limit 100)) (suf.drop (min limit 100))
          (by rw [hsplit]; conv_lhs => rw [hsuf]
              rw [List.append_assoc])
          hcur2
          (by rw [List.length_drop]; omega)
        simp only [hpage, hdec, if_true, hlastid, hrec]
        rw [← List.map_append, List.take_append_drop]
      · have htk : suf.take (min limit 100 + 1) = suf :=
          List.take_of_length_le (by omega)
        have hdec : decide (min limit 100 < (suf.take (min limit 100 + 1)).length) = false := by
          rw [htk]
          simp
          omega
        have hpage : (suf.take (min limit 100 + 1)).take (min limit 100) = suf := by
          rw [htk]
          exact List.take_of_length_le (by omega)
        simp only [hdec, Bool.false_eq_true, if_false, hpage]
        simp

/-- C1 (amended): for a fixed filter set, any limit ≥ 1, and a snapshot
whose issue ids are unique (the entity-map invariant) and non-empty,
chaining each response's `nextCursor` into the next `list_issues` call and
concatenating the issues arrays reproduces exactly the enriched
canonically-sorted filtered list, with no duplicate and no omission; each
page drops the filtered issues up to and including the cursor id, takes
`limit + 1` to detect a next page, and truncates to `limit`.  An issue with
an empty-string id breaks the round trip (its cursor is falsy), per the
counterexample. -/
theorem claim_c1_pagination (isoParse : String → Option ℚ) (snap : Snapshot)
    (assignee team state_type : Option String) (priority : Option Int)
    (updated_after : Option String) (limit : Nat)
    (ts : Option ℚ) (aid tid : Option String)
    (hts : dateArg isoParse updated_after = .ok ts)
    (ha : resolveAssignee snap.users assignee = .ok aid)
    (ht : resolveTeam snap.teams team = .ok tid)
    (hL : 1 ≤ limit)
    (hnd : (snap.issues.map (fun i => i.id)).Nodup)
    (hne : ∀ i ∈ snap.issues, i.id ≠ "")
    (fuel : Nat)
    (hfuel : (canonFiltered isoParse snap aid tid state_type priority ts).length + 1 ≤ fuel) :
    chainListIssues isoParse snap assignee team state_type priority updated_after
        limit fuel Option.none
      = (canonFiltered isoParse snap aid tid state_type priority ts).map
          (enrich snap.states) ∧
    ((canonFiltered isoParse snap aid tid state_type priority ts).map
        (fun i => i.id)).Nodup := by
  have hperm : (sortIssues snap.issues).Perm snap.issues :=
    List.perm_insertionSort issueLe snap.issues
  have hsub : (canonFiltered isoParse snap aid tid state_type priority ts).Sublist
      (sortIssues snap.issues) := List.filter_sublist _
  have hndc : ((canonFiltered isoParse snap aid tid state_type priority ts).map
      (fun i => i.id)).Nodup := by
    refine List.Nodup.sublist (List.Sublist.map _ hsub) ?_
    exact ((hperm.map (fun i => i.id)).nodup_iff).mpr hnd
  have hnec : ∀ i ∈ canonFiltered isoParse snap aid tid state_type priority ts,
      i.id ≠ "" := by
    intro i hi
    exact hne i (hperm.mem_iff.mp (List.mem_of_mem_filter hi))
  refine ⟨?_, hndc⟩
  exact chain_aux isoParse snap assignee team state_type priority updated_after limit
    ts aid tid hts ha ht hL hndc hnec fuel Option.none []
    (canonFiltered isoParse snap aid tid state_type priority ts)
    (List.nil_append _).symm rfl hfuel

/-- The pathological issue whose id is the empty string. -/
def issueEmptyId : IssueRec := plainIssue "" Option.none

/-- A second, ordinary issue. -/
def issueBee : IssueRec := plainIssue "b" Option.none

/-- A snapshot containing an issue with an empty-string id. -/
def snapC1 : Snapshot := ⟨[], [], [], [issueEmptyId, issueBee]⟩

/-- C1 counterexample: with an issue whose id is the empty string at a page
boundary, the `nextCursor` is `""`, which the `if cursor:` guard treats as
absent, so the next call restarts from the top — the chained pages repeat
the first issue for ever (duplicates) and never reach the second issue, so
concatenation does not reproduce the filtered list for limit 1. -/
theorem claim_c1_counterexample :
    chainListIssues isoParseNone snapC1 Option.none Option.none Option.none
        Option.none Option.none 1 3 Option.none
      = [enrich [] issueEmptyId, enrich [] issueEmptyId, enrich [] issueEmptyId] ∧
    canonFiltered isoParseNone snapC1 Option.none Option.none Option.none
        Option.none Option.none = [issueEmptyId, issueBee] ∧
    chainListIssues isoParseNone snapC1 Option.none Option.none Option.none
        Option.none Option.none 1 3 Option.none
      ≠ (canonFiltered isoParseNone snapC1 Option.none Option.none Option.none
          Option.none Option.none).map (enrich snapC1.states) ∧
    ¬ ((chainListIssues isoParseNone snapC1 Option.none Option.none Option.none
        Option.none Option.none 1 3 Option.none).map (fun e => e.issue.id)).Nodup := by
  refine ⟨by decide, by decide, by decide, by decide⟩

/-- A duplicate-free snapshot with three issues and non-empty ids. -/
def snapChain : Snapshot :=
  ⟨[], [], [],
   [plainIssue "a" Option.none, plainIssue "b" Option.none, plainIssue "c" Option.none]⟩

/-- Witness for C1 (amended): chaining pages of size 1 over three issues
reproduces the whole filtered list. -/
theorem claim_c1_pagination_witness :
    chainListIssues isoParseNone snapChain Option.none Option.none Option.none
        Option.none Option.none 1 4 Option.none
      = (canonFiltered isoParseNone snapChain Option.none Option.none Option.none
          Option.none Option.none).map (enrich snapChain.states) :=
  (claim_c1_pagination isoParseNone snapChain Option.none Option.none Option.none
    Option.none Option.none 1 Option.none Option.none Option.none rfl rfl rfl
    (by decide) (by decide) (by decide) 4 (by decide)).1

/-- A sample user for the C10 witness. -/
def demoUser : UserRec := ⟨"u1", Option.some "Ann", Option.some "ann", Option.none⟩

/-- A sample issue assigned to the sample user. -/
def demoIssue : IssueRec :=
  { plainIssue "a" (Option.some 1) with
      assigneeId := Option.some "u1", title := Option.some "Fix login" }

/-- A snapshot with one user and one matching issue, for the C10 witness. -/
def snapC10 : Snapshot := ⟨[], [demoUser], [], [demoIssue]⟩

/-- Witness for C10: a cursor matching no issue id yields empty pages with
null cursors but full counts, in all three operations, even though a
matching issue exists. -/
theorem claim_c10_unknown_cursor_witness :
    list_issues isoParseNone snapC10 Option.none Option.none Option.none Option.none
        Option.none 5 (Option.some "zzz")
      = { issues := [], nextCursor := Option.none,
          totalCount := (canonFiltered isoParseNone snapC10 Option.none Option.none
            Option.none Option.none Option.none).length } ∧
    search_issues snapC10 "fix" 5 (Option.some "zzz")
      = { issues := [], nextCursor := Option.none,
          matchCount := (searchFiltered snapC10 "fix").length } ∧
    get_my_issues isoParseNone snapC10 "Ann" Option.none Option.none 5 (Option.some "zzz")
      = .ok ⟨demoUser.name, demoUser.email⟩
          ((myCounts snapC10 demoUser.id).foldl (fun a p => a + p.2) 0)
          (myCounts snapC10 demoUser.id)
          (myFiltered isoParseNone snapC10 demoUser.id Option.none Option.none).length
          [] Option.none :=
  claim_c10_unknown_cursor isoParseNone snapC10 "zzz" (by decide)
    Option.none Option.none Option.none Option.none Option.none 5
    Option.none Option.none Option.none rfl rfl rfl (by decide)
    "fix" (by decide) "Ann" demoUser (by decide) (by decide)
